import Mathlib

/-!
# Verification of the nbgwas_rest task-lifecycle engine

Shallow embedding of `nbgwas_rest/nbgwas_taskrunner.py`: the filesystem-backed
task state machine (`FileBasedTask`), the task store
(`FileBasedSubmittedTaskFactory`) and the polling runner (`NbgwasTaskRunner`).

Modelling conventions:
* A filesystem path is its list of components (`FPath := List String`).
  The source only manipulates paths through `os.path.join` with single
  slash-free components, `os.path.basename` and `os.path.dirname`, which
  correspond exactly to list append, last component and `dropLast`.
* Filesystem writes and directory renames performed by the code are recorded
  as an explicit list of effects (`FsOp`); the in-memory mutation of the
  Python objects is modelled by returning the updated record.
* Python exceptions are values of `PyExc`; a function that can raise returns
  `Except PyExc _`.  A JSON value stored in a task record is a `JVal`
  (`jnull` models Python `None`).
* The network-acquisition and diffusion steps call external collaborator
  libraries (pandas / networkx / ndex2 / nbgwas) that are out of scope per the
  spec; their outcomes are supplied by an `Env` value (a graph is just its
  node list, which is all the core consults).
-/

/-- A filesystem path as its list of components.  `os.path.join(p, c)` is
`p ++ [c]`. -/
abbrev FPath := List String

/-- `os.path.basename` for component paths (`""` on the empty path, as in
Python for a path ending in a separator-free degenerate case). -/
def pathBasename (p : FPath) : String := p.getLast?.getD ""

/-- `os.path.dirname` for component paths. -/
def pathDirname (p : FPath) : FPath := p.dropLast

/-- Render a component path the way the Python code holds it as a string
(components joined by the separator); used only to build log/error text. -/
def pathToString : FPath → String
  | [] => ""
  | [c] => c
  | c :: rest => c ++ "/" ++ pathToString rest

/-- The state segment encoded in a task directory path
`{base}/{state}/{client}/{uuid}`: third component from the end.  This is the
same computation `_get_uuid_ip_state_basedir_from_path` performs with two
`dirname` calls and one `basename`. -/
def stateOfPath (p : FPath) : String := pathBasename (pathDirname (pathDirname p))

/-- Python `list.remove(a)`: delete the first occurrence of `a` (no-op model
of the `ValueError` case never occurs in the embedded loops, where the removed
element is always present). -/
def pyRemove {α : Type} [DecidableEq α] : List α → α → List α
  | [], _ => []
  | x :: xs, a => if x = a then xs else x :: pyRemove xs a

/-- Python `str.split(',')` at the character level: splitting never collapses
or strips, and the empty string yields `[""]`. -/
def splitCommaChars : List Char → List (List Char)
  | [] => [[]]
  | c :: rest =>
    let r := splitCommaChars rest
    if c = ',' then [] :: r
    else
      match r with
      | [] => [[c]]
      | w :: ws => (c :: w) :: ws

/-- Python `s.split(',')`. -/
def pySplitComma (s : String) : List String :=
  (splitCommaChars s.toList).map (fun cs => String.mk cs)

/-- A JSON value held in a task record (`task.json` is a flat string-keyed
object; `jnull` is Python `None`, `jnum` covers the numeric fields such as
`alpha`). -/
inductive JVal
  | jnull
  | jstr (s : String)
  | jnum (n : Int)
deriving DecidableEq, Repr

/-- The in-memory dict loaded from / saved to `task.json`. -/
abbrev TaskDict := List (String × JVal)

/-- Python `d[k]` lookup result (`none` means the key is absent and indexing
would raise `KeyError`). -/
def dictGet (d : TaskDict) (k : String) : Option JVal :=
  match d with
  | [] => none
  | (k0, v0) :: rest => if k0 = k then some v0 else dictGet rest k

/-- Python `d[k] = v`: replace the value of an existing key in place, else
append the new binding (insertion-ordered dict). -/
def dictSet (d : TaskDict) (k : String) (v : JVal) : TaskDict :=
  match d with
  | [] => [(k, v)]
  | (k0, v0) :: rest => if k0 = k then (k, v) :: rest else (k0, v0) :: dictSet rest k v

/-- A Python exception escaping embedded code.  `keyError k` is `KeyError(k)`
(whose `str` is the quoted key); `other` carries `str(e)` for the rest. -/
inductive PyExc
  | keyError (key : String)
  | other (msg : String)
deriving DecidableEq, Repr

/-- `str(e)` as used when the runner builds its catch-all error message. -/
def PyExc.text : PyExc → String
  | .keyError k => "'" ++ k ++ "'"
  | .other m => m

instance {ε α : Type} [DecidableEq ε] [DecidableEq α] : DecidableEq (Except ε α) := fun x y =>
  match x, y with
  | Except.ok a, Except.ok b =>
    if h : a = b then Decidable.isTrue (by rw [h])
    else Decidable.isFalse (fun heq => h (by cases heq; rfl))
  | Except.error a, Except.error b =>
    if h : a = b then Decidable.isTrue (by rw [h])
    else Decidable.isFalse (fun heq => h (by cases heq; rfl))
  | Except.ok _, Except.error _ => Decidable.isFalse (fun heq => Except.noConfusion heq)
  | Except.error _, Except.ok _ => Decidable.isFalse (fun heq => Except.noConfusion heq)

/-- A networkx graph, reduced to what the core consults: its node list. -/
abbrev Graph := List String

/-- The gene-level summary table: one `(gene, p-value)` row per graph node. -/
abbrev Table := List (String × Nat)

/-- The diffusion result: a gene → score mapping. -/
abbrev RData := List (String × Int)

/-- A filesystem effect performed by the engine: rewriting `task.json`,
writing `result.json`, or the directory rename of `shutil.move`. -/
inductive FsOp
  | writeFile (path : FPath) (content : TaskDict)
  | writeResult (path : FPath) (content : RData)
  | rename (src : FPath) (dst : FPath)
deriving DecidableEq, Repr

/-- The directory renames among a list of effects, in order. -/
def renamesOf (ops : List FsOp) : List (FPath × FPath) :=
  ops.filterMap fun op =>
    match op with
    | .rename s d => some (s, d)
    | _ => none

namespace nbgwas_rest

/-- Modelled from the spec: the `nbgwas_rest` package `__init__` defining
these constants is not under `src/`; §6 of the spec fixes the directory
layout `submitted`/`processing`/`done`, the record file `task.json`, the
result file `result.json` and the `error` record field, and §4 the synthetic
`error` outcome distinct from the three directory states. -/
def SUBMITTED_STATUS : String := "submitted"

/-- Modelled from the spec: see `nbgwas_rest.SUBMITTED_STATUS`. -/
def PROCESSING_STATUS : String := "processing"

/-- Modelled from the spec: see `nbgwas_rest.SUBMITTED_STATUS`. -/
def DONE_STATUS : String := "done"

/-- Modelled from the spec: the synthetic error outcome, folded into `done`
by `move_task`; distinct from the directory states. -/
def ERROR_STATUS : String := "error"

/-- Modelled from the spec: record field holding the error message. -/
def ERROR_PARAM : String := "error"

/-- Modelled from the spec: record field holding the comma-separated seeds. -/
def SEEDS_PARAM : String := "seeds"

/-- Modelled from the spec: name of the per-task record file. -/
def TASK_JSON : String := "task.json"

/-- Modelled from the spec: name of the per-task result file. -/
def RESULT : String := "result.json"

end nbgwas_rest

/-- `FileBasedTask.__init__`: a task bound to a directory, its record dict,
and the lazily attached in-memory artifacts (all `None` at construction). -/
structure FileBasedTask where
  taskdir : Option FPath
  taskdict : TaskDict
  networkx_obj : Option Graph
  genelevelsummary : Option Table
  filteredseedlist : Option (List String)
  resultdata : Option RData
deriving DecidableEq, Repr

/-- The parse of a task directory path performed by
`_get_uuid_ip_state_basedir_from_path`.  The Python method returns an
all-`None` dict exactly when `_taskdir` is `None`; that case is the `none` of
the surrounding `Option` in `FileBasedTask.get_uuid_ip_state_basedir_from_path`. -/
structure TaskAttrib where
  basedir : FPath
  state : String
  ipaddr : String
  uuid : String
deriving DecidableEq, Repr

/-- The successive `basename`/`dirname` extraction of
`_get_uuid_ip_state_basedir_from_path` on a non-`None` path. -/
def parsePath (p : FPath) : TaskAttrib :=
  let taskuuid := pathBasename p
  let ipdir := pathDirname p
  let ipaddr := pathBasename ipdir
  let statedir := pathDirname ipdir
  let state := pathBasename statedir
  let basedir := pathDirname statedir
  ⟨basedir, state, ipaddr, taskuuid⟩

/-- `FileBasedTask._get_uuid_ip_state_basedir_from_path`. -/
def FileBasedTask.get_uuid_ip_state_basedir_from_path (task : FileBasedTask) :
    Option TaskAttrib :=
  match task.taskdir with
  | none => none
  | some p => some (parsePath p)

/-- `FileBasedTask.save_task`: rewrite `task.json` with the current dict and,
when result data is attached, write `result.json` after it.  Returns the
error string (instead of raising) only when the task dir is unset. -/
def FileBasedTask.save_task (task : FileBasedTask) : Option String × List FsOp :=
  match task.taskdir with
  | none => (some "Task dir is None", [])
  | some d =>
    let ops := [FsOp.writeFile (d ++ [nbgwas_rest.TASK_JSON]) task.taskdict]
    match task.resultdata with
    | none => (none, ops)
    | some r => (none, ops ++ [FsOp.writeResult (d ++ [nbgwas_rest.RESULT]) r])

/-- `FileBasedTask.move_task`: recompute `{base, state, client, uuid}` from
the current directory path; a move to the state already encoded in the path
returns immediately with no filesystem effect; the synthetic `error` state is
folded into `done` after storing the error message (defaulting to
`"Unknown error"`) in the record and saving it in place; finally the
directory is renamed to `{base}/{new_state}/{client}/{uuid}` and the
in-memory path updated.  Returns the updated task, the Python return value
(`None` or an error string) and the effects in order. -/
def FileBasedTask.move_task (task : FileBasedTask) (new_state : String)
    (error_message : Option String) : FileBasedTask × Option String × List FsOp :=
  match task.get_uuid_ip_state_basedir_from_path with
  | none => (task, some "Unable to extract state basedir from task path", [])
  | some attrib =>
    if attrib.state = new_state then (task, none, [])
    else
      let folded :=
        if new_state = nbgwas_rest.ERROR_STATUS then
          let emsg := error_message.getD "Unknown error"
          let t2 : FileBasedTask :=
            { task with taskdict := dictSet task.taskdict nbgwas_rest.ERROR_PARAM (JVal.jstr emsg) }
          (nbgwas_rest.DONE_STATUS, t2, t2.save_task.2)
        else (new_state, task, [])
      let ptaskdir := attrib.basedir ++ [folded.1, attrib.ipaddr, attrib.uuid]
      ({ folded.2.1 with taskdir := some ptaskdir }, none,
        folded.2.2 ++ [FsOp.rename (task.taskdir.getD []) ptaskdir])

/-- `FileBasedTask.get_seeds`: `self._taskdict[SEEDS_PARAM]`, which raises
`KeyError` when the record lacks the seeds field. -/
def FileBasedTask.get_seeds (task : FileBasedTask) : Except PyExc JVal :=
  match dictGet task.taskdict nbgwas_rest.SEEDS_PARAM with
  | some v => Except.ok v
  | none => Except.error (PyExc.keyError nbgwas_rest.SEEDS_PARAM)

/-- The content found when `get_next_task` opens an existing `task.json`:
either JSON that parses to a dict, or content on which `json.load` (or the
read itself) raises. -/
inductive JsonFileContent
  | parseOk (d : TaskDict)
  | parseFail (errText : String)
deriving DecidableEq, Repr

/-- One entry listed inside a client-address directory: its name, whether it
is a directory, and the state of its `task.json` (`none` when
`os.path.isfile` is false, i.e. the record file is missing). -/
structure SubEntry where
  name : String
  isDir : Bool
  taskJson : Option JsonFileContent
deriving DecidableEq, Repr

/-- One entry listed inside the `submitted/` directory (a client-address
directory when `isDir` holds, a stray file otherwise). -/
structure ClientEntry where
  name : String
  isDir : Bool
  entries : List SubEntry
deriving DecidableEq, Repr

/-- The `submitted/` subtree as `get_next_task` observes it: whether the
directory exists, and its listing. -/
structure SubmittedDir where
  isDir : Bool
  entries : List ClientEntry
deriving DecidableEq, Repr

/-- `FileBasedSubmittedTaskFactory.__init__`: the base task directory and the
in-memory problem (quarantine) list. -/
structure FileBasedSubmittedTaskFactory where
  taskdir : FPath
  problemlist : List FPath
deriving DecidableEq, Repr

/-- The inner loop of `get_next_task` over the entries of one client
directory `fp`: a sub-directory with a present, parseable `task.json` is
returned as a `FileBasedTask` at once; a present but unparseable record file
puts the directory on the problem list (if not already there) and scanning
continues; a missing record file or a non-directory entry is skipped
silently. -/
def scanClientDir (plist : List FPath) (fp : FPath) :
    List SubEntry → Option FileBasedTask × List FPath
  | [] => (none, plist)
  | se :: rest =>
    if se.isDir then
      let subfp := fp ++ [se.name]
      match se.taskJson with
      | some (JsonFileContent.parseOk d) =>
          (some ⟨some subfp, d, none, none, none, none⟩, plist)
      | some (JsonFileContent.parseFail _) =>
          scanClientDir (if subfp ∈ plist then plist else plist ++ [subfp]) fp rest
      | none => scanClientDir plist fp rest
    else scanClientDir plist fp rest

/-- The outer loop of `get_next_task` over the `submitted/` listing:
non-directory entries are skipped; the first client directory whose scan
yields a task ends the call. -/
def scanSubmitted (plist : List FPath) (submitdir : FPath) :
    List ClientEntry → Option FileBasedTask × List FPath
  | [] => (none, plist)
  | ce :: rest =>
    if ce.isDir then
      let fp := submitdir ++ [ce.name]
      match scanClientDir plist fp ce.entries with
      | (some t, pl) => (some t, pl)
      | (none, pl) => scanSubmitted pl submitdir rest
    else scanSubmitted plist submitdir rest

/-- `FileBasedSubmittedTaskFactory.get_next_task`: scan
`{taskdir}/submitted` (returning `None` when it is absent) and return the
first readable task, together with the updated problem list (the Python
method mutates `self._problemlist` in place). -/
def FileBasedSubmittedTaskFactory.get_next_task
    (fac : FileBasedSubmittedTaskFactory) (fs : SubmittedDir) :
    Option FileBasedTask × List FPath :=
  let submitdir := fac.taskdir ++ [nbgwas_rest.SUBMITTED_STATUS]
  if fs.isDir then scanSubmitted fac.problemlist submitdir fs.entries
  else (none, fac.problemlist)

/-- `FileBasedSubmittedTaskFactory.get_size_of_problem_list`. -/
def FileBasedSubmittedTaskFactory.get_size_of_problem_list
    (fac : FileBasedSubmittedTaskFactory) : Nat :=
  fac.problemlist.length

/-- The loop body of `clean_up_problem_list`, at the fidelity of CPython's
list iterator: the iterator yields `plist[i]` and advances `i`; the body
builds a fresh `FileBasedTask(entry, ⦃⦄)` over the entry path, moves it to
the error outcome, and then `remove`s the entry (deleting the list's first
occurrence of it); iteration ends once `i` reaches the current length.  `i`
grows by one per step and the list never grows, so the loop runs at most the
initial length many steps; the structural `fuel` argument, initialised to
that length by `clean_up_problem_list`, is therefore never exhausted before
the index test fails, and the `fuel = 0` fallthrough returns the same state
as the index test. -/
def clean_up_go (fuel : Nat) (plist : List FPath) (i : Nat) (ops : List FsOp) :
    List FPath × List FsOp :=
  match fuel with
  | 0 => (plist, ops)
  | fuel' + 1 =>
    if h : i < plist.length then
      let entry := plist.get ⟨i, h⟩
      let t : FileBasedTask := ⟨some entry, [], none, none, none, none⟩
      let m := t.move_task nbgwas_rest.ERROR_STATUS (some "Unknown error with task")
      clean_up_go fuel' (pyRemove plist entry) (i + 1) (ops ++ m.2.2)
    else (plist, ops)

/-- `FileBasedSubmittedTaskFactory.clean_up_problem_list`: iterate over the
problem list, moving each visited entry to the error/done outcome with the
generic message and removing it from the list while iterating.  Returns the
remaining problem list and the filesystem effects. -/
def clean_up_problem_list (plist : List FPath) : List FPath × List FsOp :=
  clean_up_go plist.length plist 0 []

/-- The collaborator outcomes for one pass through the pipeline (§6 of the
spec): what `_get_networkx_object` produces for this task (`none` when
neither network source is present or the sif parse yields nothing, an
exception when e.g. the ndex fetch raises), and what `_run_nbgwas` produces
(the deserialised gene→score dict, or an exception from the external
diffusion library). -/
structure Env where
  acquireResult : Except PyExc (Option Graph)
  nbgwasResult : Except PyExc (Option RData)

/-- The `for s in slist: if s not in nodes: slist.remove(s)` loop of
`NbgwasTaskRunner._get_seeds`, at the fidelity of CPython's list iterator
(see `clean_up_go` for the fuel discipline, identical here: the index grows
every step and the list never grows, so `slist.length` fuel is never
exhausted before the index test fails).  `remove` deletes the first
occurrence, which in the presence of duplicates may precede the iterator's
position. -/
def seed_filter_go (nodes : List String) (fuel : Nat) (slist : List String)
    (i : Nat) : List String :=
  match fuel with
  | 0 => slist
  | fuel' + 1 =>
    if h : i < slist.length then
      let s := slist.get ⟨i, h⟩
      if s ∈ nodes then seed_filter_go nodes fuel' slist (i + 1)
      else seed_filter_go nodes fuel' (pyRemove slist s) (i + 1)
    else slist

namespace NbgwasTaskRunner

/-- `NbgwasTaskRunner._get_seeds`: return `None` when the record's seeds
value is `None`; otherwise split it on commas and run the in-place filtering
loop against the graph's nodes; return `None` when nothing is left, the
surviving list otherwise.  Raises `KeyError` when the seeds field is absent
(`task.get_seeds()` indexes the dict), and `AttributeError` when the seeds
value is not a string or the graph object is still `None`. -/
def get_seeds (task : FileBasedTask) : Except PyExc (Option (List String)) :=
  match task.get_seeds with
  | Except.error e => Except.error e
  | Except.ok JVal.jnull => Except.ok none
  | Except.ok (JVal.jstr s) =>
    match task.networkx_obj with
    | none => Except.error (PyExc.other "AttributeError: NoneType has no attribute nodes")
    | some nodes =>
      let slist := pySplitComma s
      let filtered := seed_filter_go nodes slist.length slist 0
      if filtered.length = 0 then Except.ok none else Except.ok (some filtered)
  | Except.ok (JVal.jnum _) =>
      Except.error (PyExc.other "AttributeError: int has no attribute split")

/-- `NbgwasTaskRunner._create_gene_level_summary`: a table with one row per
graph node, a `p-value` column first set to `1` for every row, then set to
`0` on the rows whose gene is in the filtered seed list.  The Python
function returns the table expression directly (so never `None`, hence the
`some`); accessing the fields while they are unset raises instead. -/
def create_gene_level_summary (task : FileBasedTask) : Except PyExc (Option Table) :=
  match task.networkx_obj, task.filteredseedlist with
  | some nodes, some seeds =>
    let gls : Table := nodes.map (fun g => (g, 1))
    let gls2 : Table := gls.map (fun row => if row.1 ∈ seeds then (row.1, 0) else row)
    Except.ok (some gls2)
  | _, _ => Except.error (PyExc.other "AttributeError in create gene level summary")

/-- `NbgwasTaskRunner._process_task`: move to `processing`, then run the
fail-fast stages; each stage failure moves the task to the error outcome
with its stage message and returns; success attaches the result, saves, and
moves to `done`.  The third component is an exception escaping the method
(nothing here catches), to be handled by `run_tasks`; the task returned with
it carries the mutations performed up to the raise, as in Python. -/
def process_task (env : Env) (task : FileBasedTask) :
    FileBasedTask × List FsOp × Option PyExc :=
  let m1 := task.move_task nbgwas_rest.PROCESSING_STATUS none
  let t1 := m1.1
  let ops1 := m1.2.2
  match env.acquireResult with
  | Except.error e => (t1, ops1, some e)
  | Except.ok none =>
    let m2 := t1.move_task nbgwas_rest.ERROR_STATUS
      (some "Unable to get networkx object for task")
    (m2.1, ops1 ++ m2.2.2, none)
  | Except.ok (some nObj) =>
    let t2 : FileBasedTask := { t1 with networkx_obj := some nObj }
    match get_seeds t2 with
    | Except.error e => (t2, ops1, some e)
    | Except.ok none =>
      let m2 := t2.move_task nbgwas_rest.ERROR_STATUS (some "No seeds are in network")
      (m2.1, ops1 ++ m2.2.2, none)
    | Except.ok (some slist) =>
      if slist.length = 0 then
        let m2 := t2.move_task nbgwas_rest.ERROR_STATUS (some "No seeds are in network")
        (m2.1, ops1 ++ m2.2.2, none)
      else
        let t3 : FileBasedTask := { t2 with filteredseedlist := some slist }
        match create_gene_level_summary t3 with
        | Except.error e => (t3, ops1, some e)
        | Except.ok none =>
          let m2 := t3.move_task nbgwas_rest.ERROR_STATUS
            (some "Unable to create gene level summary")
          (m2.1, ops1 ++ m2.2.2, none)
        | Except.ok (some gls) =>
          let t4 : FileBasedTask := { t3 with genelevelsummary := some gls }
          match env.nbgwasResult with
          | Except.error e => (t4, ops1, some e)
          | Except.ok none =>
            let m2 := t4.move_task nbgwas_rest.ERROR_STATUS (some "No result generated")
            (m2.1, ops1 ++ m2.2.2, none)
          | Except.ok (some result) =>
            let t5 : FileBasedTask := { t4 with resultdata := some result }
            let sv := t5.save_task
            let m2 := t5.move_task nbgwas_rest.DONE_STATUS none
            (m2.1, ops1 ++ sv.2 ++ m2.2.2, none)

/-- The per-found-task body of `NbgwasTaskRunner.run_tasks`: run
`_process_task` inside the try; on an escaping exception, move the (already
partially mutated) task to the error outcome with the catch-all message
built from the current task dir and `str(e)`, and fall through to the next
loop iteration. -/
def run_tasks_body (env : Env) (task : FileBasedTask) : FileBasedTask × List FsOp :=
  let p := process_task env task
  match p.2.2 with
  | none => (p.1, p.2.1)
  | some e =>
    let emsg := "Caught exception processing task: " ++
      pathToString ((p.1.taskdir).getD []) ++ " : " ++ e.text
    let m := p.1.move_task nbgwas_rest.ERROR_STATUS (some emsg)
    (m.1, p.2.1 ++ m.2.2)

/-- The `run_tasks` loop restricted to a finite schedule of found tasks
(each with its collaborator outcomes): every found task is handled by one
`run_tasks_body` and the loop proceeds to the next. -/
def run_tasks_trace (steps : List (Env × FileBasedTask)) :
    List (FileBasedTask × List FsOp) :=
  steps.map (fun st => run_tasks_body st.1 st.2)

end NbgwasTaskRunner

/-- A sub-entry that `get_next_task` can turn into a task: a directory whose
`task.json` exists and parses. -/
def subEntryReadable (se : SubEntry) : Bool :=
  se.isDir &&
    match se.taskJson with
    | some (JsonFileContent.parseOk _) => true
    | _ => false

/-- A client entry holding at least one readable task. -/
def clientHasReadable (ce : ClientEntry) : Bool :=
  ce.isDir && ce.entries.any subEntryReadable

/-- Whether the submitted tree holds any readable task at all. -/
def submittedHasReadable (fs : SubmittedDir) : Bool :=
  fs.isDir && fs.entries.any clientHasReadable

/-- The three stage-failure messages `_process_task` can store (the gene
level summary message is absent: that branch is unreachable, see claim 10). -/
def stageMsg (m : String) : Prop :=
  m = "Unable to get networkx object for task" ∨ m = "No seeds are in network" ∨
    m = "No result generated"

/-- Rank of a directory state along the lifecycle
`submitted → processing → done`. -/
def stateRank (s : String) : Nat :=
  if s = nbgwas_rest.SUBMITTED_STATUS then 0
  else if s = nbgwas_rest.PROCESSING_STATUS then 1
  else if s = nbgwas_rest.DONE_STATUS then 2
  else 3

/-- A submitted task whose two seeds `X1,X2` are both absent from the
acquired network (nodes `G1,G2`). -/
def exSeedlessTask : FileBasedTask :=
  ⟨some ["base", "submitted", "10.0.0.1", "abc"],
   [("seeds", JVal.jstr "X1,X2")], none, none, none, none⟩

/-- Collaborator outcomes for the seedless-task run: acquisition yields the
two-node graph, diffusion succeeds with a score for `G1`. -/
def exSeedlessEnv : Env :=
  ⟨Except.ok (some ["G1", "G2"]), Except.ok (some [("G1", 5)])⟩

/-- A submitted tree containing one client directory with one task directory
whose record file is missing (`taskJson = none`). -/
def exMissingRecordFs : SubmittedDir :=
  ⟨true, [⟨"10.0.0.1", true, [⟨"abc", true, none⟩]⟩]⟩

/-- A submitted tree containing one client directory with one task directory
whose record file exists but does not parse. -/
def exCorruptRecordFs : SubmittedDir :=
  ⟨true, [⟨"c1", true, [⟨"bad", true, some (JsonFileContent.parseFail "json decode error")⟩]⟩]⟩


/-- A submitted tree whose first client directory holds only a task
directory with a missing record file, and whose second holds a
corrupt-record directory followed by a readable one: a fetch returns the
readable task and must still quarantine the corrupt directory scanned
before it, while never quarantining the missing-record directory. -/
def exMixedFs : SubmittedDir :=
  ⟨true,
   [⟨"c0", true, [⟨"noRecord", true, none⟩]⟩,
    ⟨"c1", true,
     [⟨"bad", true, some (JsonFileContent.parseFail "json decode error")⟩,
      ⟨"good", true, some (JsonFileContent.parseOk [("seeds", JVal.jstr "A")])⟩]⟩]⟩

/-! ## Helper lemmas -/

theorem parsePath_append3 (base : FPath) (s ip u : String) :
    parsePath (base ++ [s, ip, u]) = ⟨base, s, ip, u⟩ := by
  have h3 : base ++ [s, ip, u] = ((base ++ [s]) ++ [ip]) ++ [u] := by simp
  rw [h3]
  simp [parsePath, pathBasename, pathDirname, List.getLast?_concat, List.dropLast_concat]

theorem stateOfPath_append3 (base : FPath) (s ip u : String) :
    stateOfPath (base ++ [s, ip, u]) = s := by
  have h3 : base ++ [s, ip, u] = ((base ++ [s]) ++ [ip]) ++ [u] := by simp
  rw [h3]
  simp [stateOfPath, pathBasename, pathDirname, List.getLast?_concat, List.dropLast_concat]

theorem dictGet_dictSet (d : TaskDict) (k : String) (v : JVal) :
    dictGet (dictSet d k v) k = some v := by
  induction d with
  | nil => simp [dictSet, dictGet]
  | cons kv rest ih =>
    by_cases h : kv.1 = k
    · simp [dictSet, dictGet, h]
    · simpa [dictSet, dictGet, h] using ih

theorem mem_pyRemove {α : Type} [DecidableEq α] {l : List α} {a x : α}
    (h : x ∈ pyRemove l a) : x ∈ l := by
  induction l with
  | nil => simp [pyRemove] at h
  | cons y ys ih =>
    by_cases hy : y = a
    · simp [pyRemove, hy] at h
      exact List.mem_cons_of_mem _ h
    · simp [pyRemove, hy] at h
      rcases h with h | h
      · exact h ▸ List.mem_cons_self _ _
      · exact List.mem_cons_of_mem _ (ih h)

/-- `move_task` to a `new_state` other than the synthetic error state and
other than the state already in the path: one rename, dict untouched. -/
theorem move_task_plain (task : FileBasedTask) (base : FPath) (s ip u ns : String)
    (em : Option String) (hdir : task.taskdir = some (base ++ [s, ip, u]))
    (hne : s ≠ ns) (hns : ns ≠ nbgwas_rest.ERROR_STATUS) :
    task.move_task ns em =
      ({ task with taskdir := some (base ++ [ns, ip, u]) }, none,
        [FsOp.rename (base ++ [s, ip, u]) (base ++ [ns, ip, u])]) := by
  simp [FileBasedTask.move_task, FileBasedTask.get_uuid_ip_state_basedir_from_path, hdir,
    parsePath_append3, hne, hns]

/-- `move_task` to the synthetic error state from a path-state other than
the literal `"error"` string: the message (defaulted when absent) is stored
in the dict, the record is saved in the *current* directory, then the
directory is renamed into `done/`. -/
theorem move_task_error (task : FileBasedTask) (base : FPath) (s ip u : String)
    (em : Option String) (hdir : task.taskdir = some (base ++ [s, ip, u]))
    (hse : s ≠ nbgwas_rest.ERROR_STATUS) :
    task.move_task nbgwas_rest.ERROR_STATUS em =
      ({ task with
          taskdict := dictSet task.taskdict nbgwas_rest.ERROR_PARAM
            (JVal.jstr (em.getD "Unknown error")),
          taskdir := some (base ++ [nbgwas_rest.DONE_STATUS, ip, u]) }, none,
        (FsOp.writeFile ((base ++ [s, ip, u]) ++ [nbgwas_rest.TASK_JSON])
            (dictSet task.taskdict nbgwas_rest.ERROR_PARAM
              (JVal.jstr (em.getD "Unknown error"))) ::
          (match task.resultdata with
            | none => []
            | some r => [FsOp.writeResult ((base ++ [s, ip, u]) ++ [nbgwas_rest.RESULT]) r])) ++
        [FsOp.rename (base ++ [s, ip, u]) (base ++ [nbgwas_rest.DONE_STATUS, ip, u])]) := by
  cases hres : task.resultdata <;>
    simp [FileBasedTask.move_task, FileBasedTask.get_uuid_ip_state_basedir_from_path, hdir,
      parsePath_append3, hse, FileBasedTask.save_task, hres]

theorem scanClientDir_mono (plist : List FPath) (fp : FPath) (es : List SubEntry) :
    ∀ p ∈ plist, p ∈ (scanClientDir plist fp es).2 := by
  induction es generalizing plist with
  | nil => intro p hp; simpa [scanClientDir] using hp
  | cons se rest ih =>
    intro p hp
    by_cases hd : se.isDir
    · cases hj : se.taskJson with
      | none => simpa [scanClientDir, hd, hj] using ih plist p hp
      | some c =>
        cases c with
        | parseOk d => simpa [scanClientDir, hd, hj] using hp
        | parseFail e =>
          by_cases hm : fp ++ [se.name] ∈ plist
          · simpa [scanClientDir, hd, hj, hm] using ih plist p hp
          · have hrec := ih (plist ++ [fp ++ [se.name]]) p (List.mem_append_left _ hp)
            simpa [scanClientDir, hd, hj, hm] using hrec
    · simpa [scanClientDir, hd] using ih plist p hp

theorem scanSubmitted_mono (plist : List FPath) (sd : FPath) (es : List ClientEntry) :
    ∀ p ∈ plist, p ∈ (scanSubmitted plist sd es).2 := by
  induction es generalizing plist with
  | nil => intro p hp; simpa [scanSubmitted] using hp
  | cons ce rest ih =>
    intro p hp
    by_cases hd : ce.isDir
    · rcases hsc : scanClientDir plist (sd ++ [ce.name]) ce.entries with ⟨ores, pl⟩
      have hmem : p ∈ pl := by
        have := scanClientDir_mono plist (sd ++ [ce.name]) ce.entries p hp
        rwa [hsc] at this
      cases ores with
      | none => simpa [scanSubmitted, hd, hsc] using ih pl p hmem
      | some t => simpa [scanSubmitted, hd, hsc] using hmem
    · simpa [scanSubmitted, hd] using ih plist p hp

theorem scanClientDir_nodup (plist : List FPath) (fp : FPath) (es : List SubEntry)
    (h : plist.Nodup) : (scanClientDir plist fp es).2.Nodup := by
  induction es generalizing plist with
  | nil => simpa [scanClientDir] using h
  | cons se rest ih =>
    by_cases hd : se.isDir
    · cases hj : se.taskJson with
      | none => simpa [scanClientDir, hd, hj] using ih plist h
      | some c =>
        cases c with
        | parseOk d => simpa [scanClientDir, hd, hj] using h
        | parseFail e =>
          by_cases hm : fp ++ [se.name] ∈ plist
          · simpa [scanClientDir, hd, hj, hm] using ih plist h
          · have h2 : (plist ++ [fp ++ [se.name]]).Nodup := by
              simp [List.nodup_append, h, hm]
            simpa [scanClientDir, hd, hj, hm] using ih (plist ++ [fp ++ [se.name]]) h2
    · simpa [scanClientDir, hd] using ih plist h

theorem scanSubmitted_nodup (plist : List FPath) (sd : FPath) (es : List ClientEntry)
    (h : plist.Nodup) : (scanSubmitted plist sd es).2.Nodup := by
  induction es generalizing plist with
  | nil => simpa [scanSubmitted] using h
  | cons ce rest ih =>
    by_cases hd : ce.isDir
    · rcases hsc : scanClientDir plist (sd ++ [ce.name]) ce.entries with ⟨ores, pl⟩
      have hnd : pl.Nodup := by
        have := scanClientDir_nodup plist (sd ++ [ce.name]) ce.entries h
        rwa [hsc] at this
      cases ores with
      | none => simpa [scanSubmitted, hd, hsc] using ih pl hnd
      | some t => simpa [scanSubmitted, hd, hsc] using hnd
    · simpa [scanSubmitted, hd] using ih plist h

theorem scanClientDir_none_iff (plist : List FPath) (fp : FPath) (es : List SubEntry) :
    (scanClientDir plist fp es).1 = none ↔ es.any subEntryReadable = false := by
  induction es generalizing plist with
  | nil => simp [scanClientDir]
  | cons se rest ih =>
    by_cases hd : se.isDir
    · cases hj : se.taskJson with
      | none => simp [scanClientDir, hd, hj, ih, subEntryReadable]
      | some c =>
        cases c with
        | parseOk d => simp [scanClientDir, hd, hj, subEntryReadable]
        | parseFail e =>
          by_cases hm : fp ++ [se.name] ∈ plist <;>
            simp [scanClientDir, hd, hj, hm, ih, subEntryReadable]
    · simp [scanClientDir, hd, ih, subEntryReadable]

theorem scanSubmitted_none_iff (plist : List FPath) (sd : FPath) (es : List ClientEntry) :
    (scanSubmitted plist sd es).1 = none ↔ es.any clientHasReadable = false := by
  induction es generalizing plist with
  | nil => simp [scanSubmitted]
  | cons ce rest ih =>
    by_cases hd : ce.isDir
    · rcases hsc : scanClientDir plist (sd ++ [ce.name]) ce.entries with ⟨ores, pl⟩
      have h1 : ores = none ↔ ce.entries.any subEntryReadable = false := by
        have := scanClientDir_none_iff plist (sd ++ [ce.name]) ce.entries
        rwa [hsc] at this
      cases ores with
      | none =>
        have : ce.entries.any subEntryReadable = false := h1.mp rfl
        simp [scanSubmitted, hd, hsc, ih, clientHasReadable, this]
      | some t =>
        have hre : ce.entries.any subEntryReadable = true := by
          cases hb : ce.entries.any subEntryReadable
          · exact absurd (h1.mpr hb) (by simp)
          · rfl
        simp [scanSubmitted, hd, hsc, clientHasReadable, hre]
    · simp [scanSubmitted, hd, ih, clientHasReadable, hd]

theorem scanClientDir_quarantines (plist : List FPath) (fp : FPath) (es : List SubEntry)
    (hnone : (scanClientDir plist fp es).1 = none) :
    ∀ se ∈ es, se.isDir = true → ∀ err, se.taskJson = some (JsonFileContent.parseFail err) →
      fp ++ [se.name] ∈ (scanClientDir plist fp es).2 := by
  induction es generalizing plist with
  | nil => intro se h; simp at h
  | cons se0 rest ih =>
    intro se hse hdir err hjson
    by_cases hd : se0.isDir
    · cases hj : se0.taskJson with
      | none =>
        rcases List.mem_cons.mp hse with h | h
        · subst h; rw [hjson] at hj; cases hj
        · have hnone2 : (scanClientDir plist fp rest).1 = none := by
            simpa [scanClientDir, hd, hj] using hnone
          have := ih plist hnone2 se h hdir err hjson
          simpa [scanClientDir, hd, hj] using this
      | some c =>
        cases c with
        | parseOk d =>
          exfalso
          simp [scanClientDir, hd, hj] at hnone
        | parseFail e0 =>
          rcases List.mem_cons.mp hse with h | h
          · subst h
            set pl2 := if fp ++ [se.name] ∈ plist then plist else plist ++ [fp ++ [se.name]] with hpl2
            have hmem : fp ++ [se.name] ∈ pl2 := by
              by_cases hm : fp ++ [se.name] ∈ plist
              · simp [hpl2, hm]
              · simp [hpl2, hm]
            have hmono := scanClientDir_mono pl2 fp rest (fp ++ [se.name]) hmem
            simpa [scanClientDir, hd, hj, hpl2] using hmono
          · set pl2 := if fp ++ [se0.name] ∈ plist then plist else plist ++ [fp ++ [se0.name]] with hpl2
            have hnone2 : (scanClientDir pl2 fp rest).1 = none := by
              by_cases hm : fp ++ [se0.name] ∈ plist
              · simpa [scanClientDir, hd, hj, hpl2, hm] using hnone
              · simpa [scanClientDir, hd, hj, hpl2, hm] using hnone
            have := ih pl2 hnone2 se h hdir err hjson
            by_cases hm : fp ++ [se0.name] ∈ plist
            · simpa [scanClientDir, hd, hj, hpl2, hm] using this
            · simpa [scanClientDir, hd, hj, hpl2, hm] using this
    · rcases List.mem_cons.mp hse with h | h
      · subst h; rw [hdir] at hd; exact absurd rfl hd
      · have hnone2 : (scanClientDir plist fp rest).1 = none := by
          simpa [scanClientDir, hd] using hnone
        have := ih plist hnone2 se h hdir err hjson
        simpa [scanClientDir, hd] using this

theorem scanClientDir_found_shape (plist : List FPath) (fp : FPath) (es : List SubEntry)
    (t : FileBasedTask) (h : (scanClientDir plist fp es).1 = some t) :
    ∃ n, t.taskdir = some (fp ++ [n]) := by
  induction es generalizing plist with
  | nil => simp [scanClientDir] at h
  | cons se rest ih =>
    by_cases hd : se.isDir
    · cases hj : se.taskJson with
      | none =>
        rw [scanClientDir] at h
        simp only [hd, hj, if_true] at h
        exact ih plist h
      | some c =>
        cases c with
        | parseOk d =>
          rw [scanClientDir] at h
          simp only [hd, hj, if_true] at h
          cases h
          exact ⟨se.name, rfl⟩
        | parseFail e =>
          rw [scanClientDir] at h
          simp only [hd, hj, if_true] at h
          exact ih _ h
    · rw [scanClientDir] at h
      simp only [hd] at h
      exact ih plist (by simpa using h)

theorem scanSubmitted_found_shape (plist : List FPath) (sd : FPath) (es : List ClientEntry)
    (t : FileBasedTask) (h : (scanSubmitted plist sd es).1 = some t) :
    ∃ c n, t.taskdir = some (sd ++ [c, n]) := by
  induction es generalizing plist with
  | nil => simp [scanSubmitted] at h
  | cons ce rest ih =>
    by_cases hd : ce.isDir
    · rcases hsc : scanClientDir plist (sd ++ [ce.name]) ce.entries with ⟨ores, pl⟩
      cases ores with
      | none =>
        rw [scanSubmitted] at h
        simp only [hd, hsc, if_true] at h
        exact ih pl h
      | some t0 =>
        rw [scanSubmitted] at h
        simp only [hd, hsc, if_true] at h
        cases h
        have := scanClientDir_found_shape plist (sd ++ [ce.name]) ce.entries t (by rw [hsc])
        rcases this with ⟨n, hn⟩
        exact ⟨ce.name, n, by simpa using hn⟩
    · rw [scanSubmitted] at h
      simp only [hd] at h
      exact ih plist (by simpa using h)

theorem scanClientDir_added_shape (plist : List FPath) (fp : FPath) (es : List SubEntry)
    (p : FPath) (h : p ∈ (scanClientDir plist fp es).2) :
    p ∈ plist ∨ ∃ n, p = fp ++ [n] := by
  induction es generalizing plist with
  | nil => left; simpa [scanClientDir] using h
  | cons se rest ih =>
    by_cases hd : se.isDir
    · cases hj : se.taskJson with
      | none =>
        rw [scanClientDir] at h
        simp only [hd, hj, if_true] at h
        exact ih plist h
      | some c =>
        cases c with
        | parseOk d =>
          rw [scanClientDir] at h
          simp only [hd, hj, if_true] at h
          exact Or.inl h
        | parseFail e =>
          rw [scanClientDir] at h
          simp only [hd, hj, if_true] at h
          rcases ih _ h with hmem | hnew
          · by_cases hm : fp ++ [se.name] ∈ plist
            · simp only [hm, if_true] at hmem
              exact Or.inl hmem
            · simp only [hm, if_false] at hmem
              rcases List.mem_append.mp hmem with h1 | h1
              · exact Or.inl h1
              · right; exact ⟨se.name, by simpa using h1⟩
          · exact Or.inr hnew
    · rw [scanClientDir] at h
      simp only [hd] at h
      exact ih plist (by simpa using h)

theorem scanSubmitted_added_shape (plist : List FPath) (sd : FPath) (es : List ClientEntry)
    (p : FPath) (h : p ∈ (scanSubmitted plist sd es).2) :
    p ∈ plist ∨ ∃ c n, p = sd ++ [c, n] := by
  induction es generalizing plist with
  | nil => left; simpa [scanSubmitted] using h
  | cons ce rest ih =>
    by_cases hd : ce.isDir
    · rcases hsc : scanClientDir plist (sd ++ [ce.name]) ce.entries with ⟨ores, pl⟩
      have hstep : p ∈ pl → p ∈ plist ∨ ∃ c n, p = sd ++ [c, n] := by
        intro hp
        have := scanClientDir_added_shape plist (sd ++ [ce.name]) ce.entries p (by rw [hsc]; exact hp)
        rcases this with h1 | ⟨n, hn⟩
        · exact Or.inl h1
        · right; exact ⟨ce.name, n, by simpa using hn⟩
      cases ores with
      | none =>
        rw [scanSubmitted] at h
        simp only [hd, hsc, if_true] at h
        rcases ih pl h with h1 | h1
        · exact hstep h1
        · exact Or.inr h1
      | some t0 =>
        rw [scanSubmitted] at h
        simp only [hd, hsc, if_true] at h
        exact hstep h
    · rw [scanSubmitted] at h
      simp only [hd] at h
      exact ih plist (by simpa using h)

/-- A task directory with a present-but-unparseable record file, preceded in
its client directory's listing only by entries the scan does not return
(non-readable), is quarantined by the inner scan loop — whether or not a
readable task follows it. -/
theorem scanClientDir_quarantines_scanned (plist : List FPath) (fp : FPath)
    (es1 : List SubEntry) (se : SubEntry) (es2 : List SubEntry)
    (hpre : ∀ se0 ∈ es1, subEntryReadable se0 = false)
    (hdir : se.isDir = true) (err : String)
    (hjson : se.taskJson = some (JsonFileContent.parseFail err)) :
    fp ++ [se.name] ∈ (scanClientDir plist fp (es1 ++ se :: es2)).2 := by
  revert hpre
  induction es1 generalizing plist with
  | nil =>
    intro hpre
    by_cases hm : fp ++ [se.name] ∈ plist
    · have hmono := scanClientDir_mono plist fp es2 (fp ++ [se.name]) hm
      simpa [scanClientDir, hdir, hjson, hm] using hmono
    · have hmono := scanClientDir_mono (plist ++ [fp ++ [se.name]]) fp es2 (fp ++ [se.name])
        (by simp)
      simpa [scanClientDir, hdir, hjson, hm] using hmono
  | cons se0 es1x ih =>
    intro hpre
    have h0 : subEntryReadable se0 = false := hpre se0 (List.mem_cons_self _ _)
    have hprex : ∀ x ∈ es1x, subEntryReadable x = false := fun x hx =>
      hpre x (List.mem_cons_of_mem _ hx)
    by_cases hd0 : se0.isDir
    · cases hj0 : se0.taskJson with
      | none =>
        have := ih plist hprex
        simpa [scanClientDir, hd0, hj0] using this
      | some c =>
        cases c with
        | parseOk d =>
          exfalso
          simp [subEntryReadable, hd0, hj0] at h0
        | parseFail e0 =>
          by_cases hm : fp ++ [se0.name] ∈ plist
          · have := ih plist hprex
            simpa [scanClientDir, hd0, hj0, hm] using this
          · have := ih (plist ++ [fp ++ [se0.name]]) hprex
            simpa [scanClientDir, hd0, hj0, hm] using this
    · have := ih plist hprex
      simpa [scanClientDir, hd0] using this

/-- A present-but-unparseable record directory scanned before the call ends
(no earlier client directory holds a readable task, and no earlier entry of
its own client directory is readable) is quarantined by `get_next_task`'s
scan — also when a readable task found later in the same call is returned. -/
theorem scanSubmitted_quarantines_scanned (plist : List FPath) (sd : FPath)
    (cs1 : List ClientEntry) (ce : ClientEntry) (cs2 : List ClientEntry)
    (hcpre : ∀ ce0 ∈ cs1, clientHasReadable ce0 = false)
    (hcdir : ce.isDir = true)
    (es1 : List SubEntry) (se : SubEntry) (es2 : List SubEntry)
    (hentries : ce.entries = es1 ++ se :: es2)
    (hpre : ∀ se0 ∈ es1, subEntryReadable se0 = false)
    (hdir : se.isDir = true) (err : String)
    (hjson : se.taskJson = some (JsonFileContent.parseFail err)) :
    sd ++ [ce.name, se.name] ∈ (scanSubmitted plist sd (cs1 ++ ce :: cs2)).2 := by
  revert hcpre
  induction cs1 generalizing plist with
  | nil =>
    intro hcpre
    have hq := scanClientDir_quarantines_scanned plist (sd ++ [ce.name]) es1 se es2 hpre hdir err hjson
    rw [← hentries] at hq
    rcases hsc : scanClientDir plist (sd ++ [ce.name]) ce.entries with ⟨ores, pl⟩
    rw [hsc] at hq
    cases ores with
    | some t =>
      rw [List.nil_append, scanSubmitted]
      simp only [hcdir, hsc, if_true]
      simpa [List.append_assoc] using hq
    | none =>
      rw [List.nil_append, scanSubmitted]
      simp only [hcdir, hsc, if_true]
      have := scanSubmitted_mono pl sd cs2 _ hq
      simpa [List.append_assoc] using this
  | cons ce0 cs1x ih =>
    intro hcpre
    have h0 : clientHasReadable ce0 = false := hcpre ce0 (List.mem_cons_self _ _)
    have hcprex : ∀ x ∈ cs1x, clientHasReadable x = false := fun x hx =>
      hcpre x (List.mem_cons_of_mem _ hx)
    by_cases hd0 : ce0.isDir
    · rcases hsc0 : scanClientDir plist (sd ++ [ce0.name]) ce0.entries with ⟨ores0, pl0⟩
      have hnone0 : ores0 = none := by
        have hiff := scanClientDir_none_iff plist (sd ++ [ce0.name]) ce0.entries
        rw [hsc0] at hiff
        apply hiff.mpr
        simpa [clientHasReadable, hd0] using h0
      subst hnone0
      have := ih pl0 hcprex
      rw [List.cons_append, scanSubmitted]
      simpa only [hd0, hsc0, if_true] using this
    · have := ih plist hcprex
      rw [List.cons_append, scanSubmitted]
      simpa only [hd0, if_false] using this

/-- Provenance of quarantine additions at the client level: every path the
inner scan adds comes from a scanned directory entry whose record file
exists and fails to parse; in particular a directory with a missing record
file is never the source of an addition. -/
theorem scanClientDir_added_provenance (plist : List FPath) (fp : FPath) (es : List SubEntry)
    (p : FPath) (h : p ∈ (scanClientDir plist fp es).2) :
    p ∈ plist ∨ ∃ se ∈ es, se.isDir = true ∧
      (∃ err, se.taskJson = some (JsonFileContent.parseFail err)) ∧ p = fp ++ [se.name] := by
  induction es generalizing plist with
  | nil => left; simpa [scanClientDir] using h
  | cons se rest ih =>
    by_cases hd : se.isDir
    · cases hj : se.taskJson with
      | none =>
        rw [scanClientDir] at h
        simp only [hd, hj, if_true] at h
        rcases ih plist h with h1 | ⟨se1, hmem, hrest⟩
        · exact Or.inl h1
        · exact Or.inr ⟨se1, List.mem_cons_of_mem _ hmem, hrest⟩
      | some c =>
        cases c with
        | parseOk d =>
          rw [scanClientDir] at h
          simp only [hd, hj, if_true] at h
          exact Or.inl h
        | parseFail e =>
          rw [scanClientDir] at h
          simp only [hd, hj, if_true] at h
          rcases ih _ h with h1 | ⟨se1, hmem, hrest⟩
          · by_cases hm : fp ++ [se.name] ∈ plist
            · rw [if_pos hm] at h1
              exact Or.inl h1
            · rw [if_neg hm] at h1
              rcases List.mem_append.mp h1 with h2 | h2
              · exact Or.inl h2
              · right
                refine ⟨se, List.mem_cons_self _ _, hd, ⟨e, hj⟩, ?_⟩
                simpa using h2
          · exact Or.inr ⟨se1, List.mem_cons_of_mem _ hmem, hrest⟩
    · rw [scanClientDir] at h
      simp only [hd] at h
      rcases ih plist (by simpa using h) with h1 | ⟨se1, hmem, hrest⟩
      · exact Or.inl h1
      · exact Or.inr ⟨se1, List.mem_cons_of_mem _ hmem, hrest⟩

/-- Provenance of quarantine additions for the whole scan: every path added
to the problem list is the path of a scanned directory whose record file
exists and fails to parse. -/
theorem scanSubmitted_added_provenance (plist : List FPath) (sd : FPath) (es : List ClientEntry)
    (p : FPath) (h : p ∈ (scanSubmitted plist sd es).2) :
    p ∈ plist ∨ ∃ ce ∈ es, ce.isDir = true ∧ ∃ se ∈ ce.entries, se.isDir = true ∧
      (∃ err, se.taskJson = some (JsonFileContent.parseFail err)) ∧
      p = sd ++ [ce.name, se.name] := by
  induction es generalizing plist with
  | nil => left; simpa [scanSubmitted] using h
  | cons ce rest ih =>
    by_cases hd : ce.isDir
    · rcases hsc : scanClientDir plist (sd ++ [ce.name]) ce.entries with ⟨ores, pl⟩
      have hstep : p ∈ pl → p ∈ plist ∨ ∃ se ∈ ce.entries, se.isDir = true ∧
          (∃ err, se.taskJson = some (JsonFileContent.parseFail err)) ∧
          p = sd ++ [ce.name, se.name] := by
        intro hp
        rcases scanClientDir_added_provenance plist (sd ++ [ce.name]) ce.entries p (by rw [hsc]; exact hp) with
          h1 | ⟨se1, hm, hdir1, hj1, hp1⟩
        · exact Or.inl h1
        · right
          exact ⟨se1, hm, hdir1, hj1, by simpa [List.append_assoc] using hp1⟩
      cases ores with
      | none =>
        rw [scanSubmitted] at h
        simp only [hd, hsc, if_true] at h
        rcases ih pl h with h1 | ⟨ce1, hm1, rest1⟩
        · rcases hstep h1 with h2 | ⟨se1, hm, rest2⟩
          · exact Or.inl h2
          · exact Or.inr ⟨ce, List.mem_cons_self _ _, hd, se1, hm, rest2⟩
        · exact Or.inr ⟨ce1, List.mem_cons_of_mem _ hm1, rest1⟩
      | some t0 =>
        rw [scanSubmitted] at h
        simp only [hd, hsc, if_true] at h
        rcases hstep h with h2 | ⟨se1, hm, rest2⟩
        · exact Or.inl h2
        · exact Or.inr ⟨ce, List.mem_cons_self _ _, hd, se1, hm, rest2⟩
    · rw [scanSubmitted] at h
      simp only [hd] at h
      rcases ih plist (by simpa using h) with h1 | ⟨ce1, hm1, rest1⟩
      · exact Or.inl h1
      · exact Or.inr ⟨ce1, List.mem_cons_of_mem _ hm1, rest1⟩

theorem renamesOf_append (a b : List FsOp) :
    renamesOf (a ++ b) = renamesOf a ++ renamesOf b := by
  simp [renamesOf, List.filterMap_append]

/-- The record content written by moving a freshly constructed
`FileBasedTask(entry, ⦃⦄)` to the error outcome: only the error field. -/
theorem move_fresh_error_writes (e : FPath) (m : String) (p : FPath) (d : TaskDict)
    (h : FsOp.writeFile p d ∈
      ((⟨some e, [], none, none, none, none⟩ : FileBasedTask).move_task
        nbgwas_rest.ERROR_STATUS (some m)).2.2) :
    d = [(nbgwas_rest.ERROR_PARAM, JVal.jstr m)] := by
  by_cases hs : (parsePath e).state = nbgwas_rest.ERROR_STATUS
  · simp [FileBasedTask.move_task, FileBasedTask.get_uuid_ip_state_basedir_from_path, hs] at h
  · simp [FileBasedTask.move_task, FileBasedTask.get_uuid_ip_state_basedir_from_path, hs,
      FileBasedTask.save_task, dictSet] at h
    exact h.2

/-- The renames emitted by moving a freshly constructed task over path `e`
to the error outcome: a single rename whose source keeps `e`'s path-state
and whose target is in `done/`. -/
theorem move_fresh_error_renames (e : FPath) (m : String) (pr : FPath × FPath)
    (hs : stateOfPath e ≠ nbgwas_rest.ERROR_STATUS)
    (h : pr ∈ renamesOf ((⟨some e, [], none, none, none, none⟩ : FileBasedTask).move_task
        nbgwas_rest.ERROR_STATUS (some m)).2.2) :
    stateOfPath pr.1 = stateOfPath e ∧ stateOfPath pr.2 = nbgwas_rest.DONE_STATUS := by
  have hs2 : ¬ (parsePath e).state = nbgwas_rest.ERROR_STATUS := hs
  simp [FileBasedTask.move_task, FileBasedTask.get_uuid_ip_state_basedir_from_path, hs2,
    FileBasedTask.save_task, renamesOf] at h
  subst h
  refine ⟨rfl, ?_⟩
  simpa using stateOfPath_append3 (parsePath e).basedir nbgwas_rest.DONE_STATUS
    (parsePath e).ipaddr (parsePath e).uuid

theorem clean_up_go_writes (fuel : Nat) (plist : List FPath) (i : Nat) (ops : List FsOp)
    (hops : ∀ p d, FsOp.writeFile p d ∈ ops →
      d = [(nbgwas_rest.ERROR_PARAM, JVal.jstr "Unknown error with task")]) :
    ∀ p d, FsOp.writeFile p d ∈ (clean_up_go fuel plist i ops).2 →
      d = [(nbgwas_rest.ERROR_PARAM, JVal.jstr "Unknown error with task")] := by
  induction fuel generalizing plist i ops with
  | zero => simpa [clean_up_go] using hops
  | succ fuel' ih =>
    by_cases h : i < plist.length
    · intro p d hmem
      rw [clean_up_go] at hmem
      simp only [h, dif_pos] at hmem
      refine ih _ _ _ ?_ p d hmem
      intro p0 d0 h0
      rcases List.mem_append.mp h0 with h1 | h1
      · exact hops p0 d0 h1
      · exact move_fresh_error_writes _ _ p0 d0 h1
    · intro p d hmem
      rw [clean_up_go] at hmem
      simp only [h, dif_neg, not_false_iff] at hmem
      exact hops p d hmem

theorem clean_up_go_renames (fuel : Nat) (plist : List FPath) (i : Nat) (ops : List FsOp)
    (hsub : ∀ p ∈ plist, stateOfPath p = nbgwas_rest.SUBMITTED_STATUS)
    (hops : ∀ pr ∈ renamesOf ops,
      stateOfPath pr.1 = nbgwas_rest.SUBMITTED_STATUS ∧
      stateOfPath pr.2 = nbgwas_rest.DONE_STATUS) :
    ∀ pr ∈ renamesOf (clean_up_go fuel plist i ops).2,
      stateOfPath pr.1 = nbgwas_rest.SUBMITTED_STATUS ∧
      stateOfPath pr.2 = nbgwas_rest.DONE_STATUS := by
  induction fuel generalizing plist i ops with
  | zero => simpa [clean_up_go] using hops
  | succ fuel' ih =>
    by_cases h : i < plist.length
    · intro pr hmem
      rw [clean_up_go] at hmem
      simp only [h, dif_pos] at hmem
      have hentry : stateOfPath (plist.get ⟨i, h⟩) = nbgwas_rest.SUBMITTED_STATUS :=
        hsub _ (plist.get_mem i h)
      refine ih (pyRemove plist (plist.get ⟨i, h⟩)) (i + 1) _ ?_ ?_ pr hmem
      · intro p hp
        exact hsub p (mem_pyRemove hp)
      · intro pr0 h0
        rw [renamesOf_append] at h0
        rcases List.mem_append.mp h0 with h1 | h1
        · exact hops pr0 h1
        · have hne : stateOfPath (plist.get ⟨i, h⟩) ≠ nbgwas_rest.ERROR_STATUS := by
            rw [hentry]
            decide
          have := move_fresh_error_renames _ _ pr0 hne h1
          exact ⟨by rw [this.1, hentry], this.2⟩
    · intro pr hmem
      rw [clean_up_go] at hmem
      simp only [h, dif_neg, not_false_iff] at hmem
      exact hops pr hmem

/-- Branch-exhaustive characterisation of `_process_task` on a task fetched
from `submitted/`: where the task directory ends up, which renames happen,
and what record contents ever reach disk, for every collaborator outcome. -/
theorem process_task_spec (env : Env) (task : FileBasedTask) (base : FPath) (ip u : String)
    (hdir : task.taskdir = some (base ++ [nbgwas_rest.SUBMITTED_STATUS, ip, u])) :
    (NbgwasTaskRunner.process_task env task).2.2.isSome →
      (NbgwasTaskRunner.process_task env task).1.taskdir =
        some (base ++ [nbgwas_rest.PROCESSING_STATUS, ip, u]) ∧
      (NbgwasTaskRunner.process_task env task).1.taskdict = task.taskdict ∧
      renamesOf (NbgwasTaskRunner.process_task env task).2.1 =
        [(base ++ [nbgwas_rest.SUBMITTED_STATUS, ip, u],
          base ++ [nbgwas_rest.PROCESSING_STATUS, ip, u])] := by
  obtain ⟨acq, nres⟩ := env
  have hm1 := move_task_plain task base nbgwas_rest.SUBMITTED_STATUS ip u
    nbgwas_rest.PROCESSING_STATUS none hdir (by decide) (by decide)
  cases acq with
  | error e =>
    simp [NbgwasTaskRunner.process_task, hm1, renamesOf]
  | ok og =>
    cases og with
    | none =>
      simp [NbgwasTaskRunner.process_task, hm1]
    | some g =>
      rcases hseeds : NbgwasTaskRunner.get_seeds
        { task with taskdir := some (base ++ [nbgwas_rest.PROCESSING_STATUS, ip, u]),
                    networkx_obj := some g } with e | oss
      · simp [NbgwasTaskRunner.process_task, hm1, hseeds, renamesOf]
      · cases oss with
        | none => simp [NbgwasTaskRunner.process_task, hm1, hseeds]
        | some slist =>
          by_cases hlen : slist.length = 0
          · simp [NbgwasTaskRunner.process_task, hm1, hseeds, hlen]
          · cases nres with
            | error e =>
              simp [NbgwasTaskRunner.process_task, hm1, hseeds, hlen,
                NbgwasTaskRunner.create_gene_level_summary, renamesOf]
            | ok ores =>
              cases ores with
              | none =>
                simp [NbgwasTaskRunner.process_task, hm1, hseeds, hlen,
                  NbgwasTaskRunner.create_gene_level_summary]
              | some res =>
                simp [NbgwasTaskRunner.process_task, hm1, hseeds, hlen,
                  NbgwasTaskRunner.create_gene_level_summary]

theorem move_task_error_taskdir (task : FileBasedTask) (base : FPath) (s ip u : String)
    (em : Option String) (hdir : task.taskdir = some (base ++ [s, ip, u]))
    (hse : s ≠ nbgwas_rest.ERROR_STATUS) :
    (task.move_task nbgwas_rest.ERROR_STATUS em).1.taskdir =
      some (base ++ [nbgwas_rest.DONE_STATUS, ip, u]) := by
  rw [move_task_error task base s ip u em hdir hse]

theorem move_task_error_taskdict (task : FileBasedTask) (base : FPath) (s ip u : String)
    (em : Option String) (hdir : task.taskdir = some (base ++ [s, ip, u]))
    (hse : s ≠ nbgwas_rest.ERROR_STATUS) :
    (task.move_task nbgwas_rest.ERROR_STATUS em).1.taskdict =
      dictSet task.taskdict nbgwas_rest.ERROR_PARAM (JVal.jstr (em.getD "Unknown error")) := by
  rw [move_task_error task base s ip u em hdir hse]

theorem move_task_error_renames (task : FileBasedTask) (base : FPath) (s ip u : String)
    (em : Option String) (hdir : task.taskdir = some (base ++ [s, ip, u]))
    (hse : s ≠ nbgwas_rest.ERROR_STATUS) :
    renamesOf (task.move_task nbgwas_rest.ERROR_STATUS em).2.2 =
      [(base ++ [s, ip, u], base ++ [nbgwas_rest.DONE_STATUS, ip, u])] := by
  rw [move_task_error task base s ip u em hdir hse]
  cases task.resultdata <;> simp [renamesOf]

theorem move_task_error_writeFile (task : FileBasedTask) (base : FPath) (s ip u : String)
    (em : Option String) (hdir : task.taskdir = some (base ++ [s, ip, u]))
    (hse : s ≠ nbgwas_rest.ERROR_STATUS) (p : FPath) (d : TaskDict)
    (h : FsOp.writeFile p d ∈ (task.move_task nbgwas_rest.ERROR_STATUS em).2.2) :
    d = dictSet task.taskdict nbgwas_rest.ERROR_PARAM (JVal.jstr (em.getD "Unknown error")) := by
  rw [move_task_error task base s ip u em hdir hse] at h
  cases hres : task.resultdata <;> rw [hres] at h <;> simp at h <;> exact h.2

/-- Branch-exhaustive characterisation of `_process_task` when no exception
escapes: the task always ends in `done/` after exactly the two forward
renames `submitted → processing` and `processing → done`. -/
theorem process_task_spec_done (env : Env) (task : FileBasedTask) (base : FPath) (ip u : String)
    (hdir : task.taskdir = some (base ++ [nbgwas_rest.SUBMITTED_STATUS, ip, u])) :
    (NbgwasTaskRunner.process_task env task).2.2 = none →
      (NbgwasTaskRunner.process_task env task).1.taskdir =
        some (base ++ [nbgwas_rest.DONE_STATUS, ip, u]) ∧
      renamesOf (NbgwasTaskRunner.process_task env task).2.1 =
        [(base ++ [nbgwas_rest.SUBMITTED_STATUS, ip, u],
          base ++ [nbgwas_rest.PROCESSING_STATUS, ip, u]),
         (base ++ [nbgwas_rest.PROCESSING_STATUS, ip, u],
          base ++ [nbgwas_rest.DONE_STATUS, ip, u])] := by
  obtain ⟨acq, nres⟩ := env
  have hm1 := move_task_plain task base nbgwas_rest.SUBMITTED_STATUS ip u
    nbgwas_rest.PROCESSING_STATUS none hdir (by decide) (by decide)
  cases acq with
  | error e => simp [NbgwasTaskRunner.process_task, hm1]
  | ok og =>
    cases og with
    | none =>
      simp only [NbgwasTaskRunner.process_task, hm1]
      intro hx
      rw [move_task_error_taskdir _ base nbgwas_rest.PROCESSING_STATUS ip u _ rfl (by decide),
        renamesOf_append,
        move_task_error_renames _ base nbgwas_rest.PROCESSING_STATUS ip u _ rfl (by decide)]
      simp [renamesOf]
    | some g =>
      rcases hseeds : NbgwasTaskRunner.get_seeds
        { task with taskdir := some (base ++ [nbgwas_rest.PROCESSING_STATUS, ip, u]),
                    networkx_obj := some g } with e | oss
      · simp [NbgwasTaskRunner.process_task, hm1, hseeds]
      · cases oss with
        | none =>
          simp only [NbgwasTaskRunner.process_task, hm1, hseeds]
          intro hx
          rw [move_task_error_taskdir _ base nbgwas_rest.PROCESSING_STATUS ip u _ rfl (by decide),
            renamesOf_append,
            move_task_error_renames _ base nbgwas_rest.PROCESSING_STATUS ip u _ rfl (by decide)]
          simp [renamesOf]
        | some slist =>
          by_cases hlen : slist.length = 0
          · simp only [NbgwasTaskRunner.process_task, hm1, hseeds]
            rw [if_pos hlen]
            intro hx
            rw [move_task_error_taskdir _ base nbgwas_rest.PROCESSING_STATUS ip u _ rfl (by decide),
              renamesOf_append,
              move_task_error_renames _ base nbgwas_rest.PROCESSING_STATUS ip u _ rfl (by decide)]
            simp [renamesOf]
          · cases nres with
            | error e =>
              simp only [NbgwasTaskRunner.process_task, hm1, hseeds]
              rw [if_neg hlen]
              simp [NbgwasTaskRunner.create_gene_level_summary]
            | ok ores =>
              cases ores with
              | none =>
                simp only [NbgwasTaskRunner.process_task, hm1, hseeds]
                rw [if_neg hlen]
                simp only [NbgwasTaskRunner.create_gene_level_summary]
                intro hx
                rw [move_task_error_taskdir _ base nbgwas_rest.PROCESSING_STATUS ip u _ rfl (by decide),
                  renamesOf_append,
                  move_task_error_renames _ base nbgwas_rest.PROCESSING_STATUS ip u _ rfl (by decide)]
                simp [renamesOf]
              | some res =>
                simp only [NbgwasTaskRunner.process_task, hm1, hseeds]
                rw [if_neg hlen]
                simp only [NbgwasTaskRunner.create_gene_level_summary]
                intro hx
                rw [move_task_plain _ base nbgwas_rest.PROCESSING_STATUS ip u
                  nbgwas_rest.DONE_STATUS none rfl (by decide) (by decide)]
                simp [FileBasedTask.save_task, renamesOf]

/-- Every record content `_process_task` ever writes to disk is either the
task's own dict (the success-path save) or that dict with one of the three
stage-failure messages stored under the error key. -/
theorem process_task_writes (env : Env) (task : FileBasedTask) (base : FPath) (ip u : String)
    (hdir : task.taskdir = some (base ++ [nbgwas_rest.SUBMITTED_STATUS, ip, u])) :
    ∀ p d, FsOp.writeFile p d ∈ (NbgwasTaskRunner.process_task env task).2.1 →
      d = task.taskdict ∨ ∃ m, stageMsg m ∧
        d = dictSet task.taskdict nbgwas_rest.ERROR_PARAM (JVal.jstr m) := by
  obtain ⟨acq, nres⟩ := env
  have hm1 := move_task_plain task base nbgwas_rest.SUBMITTED_STATUS ip u
    nbgwas_rest.PROCESSING_STATUS none hdir (by decide) (by decide)
  cases acq with
  | error e =>
    intro p d h
    simp [NbgwasTaskRunner.process_task, hm1] at h
  | ok og =>
    cases og with
    | none =>
      intro p d h
      simp only [NbgwasTaskRunner.process_task, hm1] at h
      rcases List.mem_append.mp h with h1 | h1
      · simp at h1
      · right
        refine ⟨"Unable to get networkx object for task", Or.inl rfl, ?_⟩
        exact move_task_error_writeFile _ base nbgwas_rest.PROCESSING_STATUS ip u _ rfl
          (by decide) p d h1
    | some g =>
      rcases hseeds : NbgwasTaskRunner.get_seeds
        { task with taskdir := some (base ++ [nbgwas_rest.PROCESSING_STATUS, ip, u]),
                    networkx_obj := some g } with e | oss
      · intro p d h
        simp [NbgwasTaskRunner.process_task, hm1, hseeds] at h
      · cases oss with
        | none =>
          intro p d h
          simp only [NbgwasTaskRunner.process_task, hm1, hseeds] at h
          rcases List.mem_append.mp h with h1 | h1
          · simp at h1
          · right
            refine ⟨"No seeds are in network", Or.inr (Or.inl rfl), ?_⟩
            exact move_task_error_writeFile _ base nbgwas_rest.PROCESSING_STATUS ip u _ rfl
              (by decide) p d h1
        | some slist =>
          by_cases hlen : slist.length = 0
          · intro p d h
            simp only [NbgwasTaskRunner.process_task, hm1, hseeds] at h
            rw [if_pos hlen] at h
            rcases List.mem_append.mp h with h1 | h1
            · simp at h1
            · right
              refine ⟨"No seeds are in network", Or.inr (Or.inl rfl), ?_⟩
              exact move_task_error_writeFile _ base nbgwas_rest.PROCESSING_STATUS ip u _ rfl
                (by decide) p d h1
          · cases nres with
            | error e =>
              intro p d h
              simp only [NbgwasTaskRunner.process_task, hm1, hseeds] at h
              rw [if_neg hlen] at h
              simp only [NbgwasTaskRunner.create_gene_level_summary] at h
              simp at h
            | ok ores =>
              cases ores with
              | none =>
                intro p d h
                simp only [NbgwasTaskRunner.process_task, hm1, hseeds] at h
                rw [if_neg hlen] at h
                simp only [NbgwasTaskRunner.create_gene_level_summary] at h
                rcases List.mem_append.mp h with h1 | h1
                · simp at h1
                · right
                  refine ⟨"No result generated", Or.inr (Or.inr rfl), ?_⟩
                  exact move_task_error_writeFile _ base nbgwas_rest.PROCESSING_STATUS ip u _ rfl
                    (by decide) p d h1
              | some res =>
                intro p d h
                simp only [NbgwasTaskRunner.process_task, hm1, hseeds] at h
                rw [if_neg hlen] at h
                simp only [NbgwasTaskRunner.create_gene_level_summary] at h
                rw [move_task_plain _ base nbgwas_rest.PROCESSING_STATUS ip u
                  nbgwas_rest.DONE_STATUS none rfl (by decide) (by decide)] at h
                simp [FileBasedTask.save_task] at h
                left
                exact h.2

/-- The in-memory record dict after `_process_task`: unchanged, or extended
with one of the three stage-failure messages. -/
theorem process_task_dict (env : Env) (task : FileBasedTask) (base : FPath) (ip u : String)
    (hdir : task.taskdir = some (base ++ [nbgwas_rest.SUBMITTED_STATUS, ip, u])) :
    (NbgwasTaskRunner.process_task env task).1.taskdict = task.taskdict ∨
      ∃ m, stageMsg m ∧ (NbgwasTaskRunner.process_task env task).1.taskdict =
        dictSet task.taskdict nbgwas_rest.ERROR_PARAM (JVal.jstr m) := by
  obtain ⟨acq, nres⟩ := env
  have hm1 := move_task_plain task base nbgwas_rest.SUBMITTED_STATUS ip u
    nbgwas_rest.PROCESSING_STATUS none hdir (by decide) (by decide)
  cases acq with
  | error e => left; simp [NbgwasTaskRunner.process_task, hm1]
  | ok og =>
    cases og with
    | none =>
      right
      refine ⟨"Unable to get networkx object for task", Or.inl rfl, ?_⟩
      simp only [NbgwasTaskRunner.process_task, hm1]
      rw [move_task_error_taskdict _ base nbgwas_rest.PROCESSING_STATUS ip u _ rfl (by decide)]
      rfl
    | some g =>
      rcases hseeds : NbgwasTaskRunner.get_seeds
        { task with taskdir := some (base ++ [nbgwas_rest.PROCESSING_STATUS, ip, u]),
                    networkx_obj := some g } with e | oss
      · left; simp [NbgwasTaskRunner.process_task, hm1, hseeds]
      · cases oss with
        | none =>
          right
          refine ⟨"No seeds are in network", Or.inr (Or.inl rfl), ?_⟩
          simp only [NbgwasTaskRunner.process_task, hm1, hseeds]
          rw [move_task_error_taskdict _ base nbgwas_rest.PROCESSING_STATUS ip u _ rfl (by decide)]
          rfl
        | some slist =>
          by_cases hlen : slist.length = 0
          · right
            refine ⟨"No seeds are in network", Or.inr (Or.inl rfl), ?_⟩
            simp only [NbgwasTaskRunner.process_task, hm1, hseeds]
            rw [if_pos hlen]
            rw [move_task_error_taskdict _ base nbgwas_rest.PROCESSING_STATUS ip u _ rfl (by decide)]
            rfl
          · cases nres with
            | error e =>
              left
              simp only [NbgwasTaskRunner.process_task, hm1, hseeds]
              rw [if_neg hlen]
              simp [NbgwasTaskRunner.create_gene_level_summary]
            | ok ores =>
              cases ores with
              | none =>
                right
                refine ⟨"No result generated", Or.inr (Or.inr rfl), ?_⟩
                simp only [NbgwasTaskRunner.process_task, hm1, hseeds]
                rw [if_neg hlen]
                simp only [NbgwasTaskRunner.create_gene_level_summary]
                rw [move_task_error_taskdict _ base nbgwas_rest.PROCESSING_STATUS ip u _ rfl (by decide)]
                rfl
              | some res =>
                left
                simp only [NbgwasTaskRunner.process_task, hm1, hseeds]
                rw [if_neg hlen]
                simp only [NbgwasTaskRunner.create_gene_level_summary]
                rw [move_task_plain _ base nbgwas_rest.PROCESSING_STATUS ip u
                  nbgwas_rest.DONE_STATUS none rfl (by decide) (by decide)]

theorem scanSubmitted_quarantines (plist : List FPath) (sd : FPath) (es : List ClientEntry)
    (hnone : (scanSubmitted plist sd es).1 = none) :
    ∀ ce ∈ es, ce.isDir = true → ∀ se ∈ ce.entries, se.isDir = true →
      ∀ err, se.taskJson = some (JsonFileContent.parseFail err) →
        sd ++ [ce.name, se.name] ∈ (scanSubmitted plist sd es).2 := by
  induction es generalizing plist with
  | nil => intro ce h; simp at h
  | cons ce0 rest ih =>
    intro ce hce hdir se hse hsed err hjson
    by_cases hd : ce0.isDir
    · rcases hsc : scanClientDir plist (sd ++ [ce0.name]) ce0.entries with ⟨ores, pl⟩
      cases ores with
      | some t0 =>
        exfalso
        rw [scanSubmitted] at hnone
        simp only [hd, hsc, if_true] at hnone
        exact Option.noConfusion hnone
      | none =>
        have hnone2 : (scanSubmitted pl sd rest).1 = none := by
          rw [scanSubmitted] at hnone
          simpa only [hd, hsc, if_true] using hnone
        rcases List.mem_cons.mp hce with hh | hh
        · subst hh
          have hq := scanClientDir_quarantines plist (sd ++ [ce.name]) ce.entries
            (by rw [hsc]) se hse hsed err hjson
          rw [hsc] at hq
          have hmem := scanSubmitted_mono pl sd rest _ hq
          rw [scanSubmitted]
          simp only [hd, hsc, if_true]
          simpa using hmem
        · have := ih pl hnone2 ce hh hdir se hse hsed err hjson
          rw [scanSubmitted]
          simpa only [hd, hsc, if_true] using this
    · rcases List.mem_cons.mp hce with hh | hh
      · subst hh; rw [hdir] at hd; exact absurd rfl hd
      · have hnone2 : (scanSubmitted plist sd rest).1 = none := by
          rw [scanSubmitted] at hnone
          simpa only [hd] using hnone
        have := ih plist hnone2 ce hh hdir se hse hsed err hjson
        rw [scanSubmitted]
        simpa only [hd] using this

/-- The renames performed on one found task by the `run_tasks` loop body:
always exactly `submitted → processing` followed by `processing → done`,
whether the pipeline succeeds, fails a stage, or raises. -/
theorem run_tasks_body_renames (env : Env) (task : FileBasedTask) (base : FPath)
    (ip u : String)
    (hdir : task.taskdir = some (base ++ [nbgwas_rest.SUBMITTED_STATUS, ip, u])) :
    renamesOf (NbgwasTaskRunner.run_tasks_body env task).2 =
      [(base ++ [nbgwas_rest.SUBMITTED_STATUS, ip, u],
        base ++ [nbgwas_rest.PROCESSING_STATUS, ip, u]),
       (base ++ [nbgwas_rest.PROCESSING_STATUS, ip, u],
        base ++ [nbgwas_rest.DONE_STATUS, ip, u])] := by
  rcases hp : NbgwasTaskRunner.process_task env task with ⟨t, ops, exc⟩
  cases exc with
  | none =>
    have hdone := process_task_spec_done env task base ip u hdir
    rw [hp] at hdone
    simp only [NbgwasTaskRunner.run_tasks_body, hp]
    exact (hdone rfl).2
  | some e =>
    have hspec := process_task_spec env task base ip u hdir
    rw [hp] at hspec
    obtain ⟨ht, hd, hr⟩ := hspec (by simp)
    simp only [NbgwasTaskRunner.run_tasks_body, hp]
    rw [renamesOf_append, hr,
      move_task_error_renames t base nbgwas_rest.PROCESSING_STATUS ip u _ ht (by decide)]
    rfl

theorem gls_rows (nodes : List String) (seeds : List String) :
    (nodes.map (fun g => (g, (1 : Nat)))).map
        (fun row => if row.1 ∈ seeds then (row.1, 0) else row) =
      nodes.map (fun n => (n, if n ∈ seeds then (0 : Nat) else 1)) := by
  induction nodes with
  | nil => rfl
  | cons n ns ih =>
    by_cases h : n ∈ seeds <;> simp [h, ih]

/-! ## Claims -/

/-- Claim C1 (code bug at this input): a submitted task whose seeds field is
`"X1,X2"`, with neither identifier a node of the acquired network
`[G1, G2]`, is NOT routed to the done-with-seed-error outcome: the
remove-while-iterating filter of `_get_seeds` leaves `X2` in the list, the
pipeline runs to completion, and the task ends in `done/` with an attached
result and no error field in its record at all. -/
theorem claim_C1_eval :
    (NbgwasTaskRunner.run_tasks_body exSeedlessEnv exSeedlessTask).1.taskdir =
      some ["base", "done", "10.0.0.1", "abc"] ∧
    (NbgwasTaskRunner.run_tasks_body exSeedlessEnv exSeedlessTask).1.resultdata =
      some [("G1", 5)] ∧
    dictGet (NbgwasTaskRunner.run_tasks_body exSeedlessEnv exSeedlessTask).1.taskdict
      nbgwas_rest.ERROR_PARAM = none ∧
    FsOp.writeResult ["base", "processing", "10.0.0.1", "abc", "result.json"] [("G1", 5)] ∈
      (NbgwasTaskRunner.run_tasks_body exSeedlessEnv exSeedlessTask).2 := by
  decide

/-- Claim C2 (code bug at this input): with seed string `"X1,X2"` and graph
nodes `[G1, G2]`, `_get_seeds` returns `[X2]` — a non-member of the graph is
retained and the empty-filter failure is not triggered, because the loop
removes from the list it is iterating over and so never examines `X2`. -/
theorem claim_C2_eval :
    NbgwasTaskRunner.get_seeds
        ⟨some ["base", "processing", "10.0.0.1", "abc"],
         [("seeds", JVal.jstr "X1,X2")], some ["G1", "G2"], none, none, none⟩ =
      Except.ok (some ["X2"]) ∧
    "X2" ∉ (["G1", "G2"] : List String) := by
  decide

/-- Claim C3 (code bug at this input): one `clean_up_problem_list` pass over
a two-entry quarantine list relocates only the first entry and leaves the
second both unmoved and still on the list — the loop removes from the list
it is iterating over, so it never visits the (shifted) second entry. -/
theorem claim_C3_eval :
    (clean_up_problem_list
        [["base", "submitted", "10.0.0.1", "t1"], ["base", "submitted", "10.0.0.1", "t2"]]).1 =
      [["base", "submitted", "10.0.0.1", "t2"]] ∧
    renamesOf (clean_up_problem_list
        [["base", "submitted", "10.0.0.1", "t1"], ["base", "submitted", "10.0.0.1", "t2"]]).2 =
      [(["base", "submitted", "10.0.0.1", "t1"], ["base", "done", "10.0.0.1", "t1"])] := by
  decide

/-- Claim C4: moving a task to the synthetic ERROR state (from any task
directory `{base}/{s}/{client}/{uuid}` whose path-state is not the literal
error string) returns success, stores the error message — defaulting to
"Unknown error" when `None` is passed — into the record, writes the record
into the *current* directory before any rename, and renames the directory to
`done/{client}/{uuid}`, not to an error directory. -/
theorem claim_C4 (task : FileBasedTask) (base : FPath) (s ip u : String)
    (em : Option String) (hdir : task.taskdir = some (base ++ [s, ip, u]))
    (hse : s ≠ nbgwas_rest.ERROR_STATUS) :
    (task.move_task nbgwas_rest.ERROR_STATUS em).2.1 = none ∧
    dictGet (task.move_task nbgwas_rest.ERROR_STATUS em).1.taskdict nbgwas_rest.ERROR_PARAM =
      some (JVal.jstr (em.getD "Unknown error")) ∧
    (task.move_task nbgwas_rest.ERROR_STATUS em).1.taskdir =
      some (base ++ [nbgwas_rest.DONE_STATUS, ip, u]) ∧
    ∃ mid : List FsOp,
      (task.move_task nbgwas_rest.ERROR_STATUS em).2.2 =
        FsOp.writeFile ((base ++ [s, ip, u]) ++ [nbgwas_rest.TASK_JSON])
            (dictSet task.taskdict nbgwas_rest.ERROR_PARAM (JVal.jstr (em.getD "Unknown error"))) ::
          mid ++ [FsOp.rename (base ++ [s, ip, u]) (base ++ [nbgwas_rest.DONE_STATUS, ip, u])] ∧
        renamesOf mid = [] := by
  rw [move_task_error task base s ip u em hdir hse]
  refine ⟨rfl, dictGet_dictSet _ _ _, rfl, ?_⟩
  cases task.resultdata with
  | none => exact ⟨[], rfl, rfl⟩
  | some r => exact ⟨[FsOp.writeResult ((base ++ [s, ip, u]) ++ [nbgwas_rest.RESULT]) r], rfl, rfl⟩

/-- Claim C4 witness: the theorem applied at a concrete task (with `None`
error message, exercising the default text). -/
theorem claim_C4_witness :
    (FileBasedTask.move_task
        ⟨some ["base", "processing", "10.0.0.1", "w4"], [("seeds", JVal.jstr "A")],
         none, none, none, none⟩ nbgwas_rest.ERROR_STATUS none).2.1 = none ∧
    dictGet (FileBasedTask.move_task
        ⟨some ["base", "processing", "10.0.0.1", "w4"], [("seeds", JVal.jstr "A")],
         none, none, none, none⟩ nbgwas_rest.ERROR_STATUS none).1.taskdict
      nbgwas_rest.ERROR_PARAM = some (JVal.jstr (Option.getD none "Unknown error")) ∧
    (FileBasedTask.move_task
        ⟨some ["base", "processing", "10.0.0.1", "w4"], [("seeds", JVal.jstr "A")],
         none, none, none, none⟩ nbgwas_rest.ERROR_STATUS none).1.taskdir =
      some (["base"] ++ [nbgwas_rest.DONE_STATUS, "10.0.0.1", "w4"]) ∧
    ∃ mid : List FsOp,
      (FileBasedTask.move_task
          ⟨some ["base", "processing", "10.0.0.1", "w4"], [("seeds", JVal.jstr "A")],
           none, none, none, none⟩ nbgwas_rest.ERROR_STATUS none).2.2 =
        FsOp.writeFile ((["base"] ++ ["processing", "10.0.0.1", "w4"]) ++ [nbgwas_rest.TASK_JSON])
            (dictSet [("seeds", JVal.jstr "A")] nbgwas_rest.ERROR_PARAM
              (JVal.jstr (Option.getD none "Unknown error"))) ::
          mid ++ [FsOp.rename (["base"] ++ ["processing", "10.0.0.1", "w4"])
            (["base"] ++ [nbgwas_rest.DONE_STATUS, "10.0.0.1", "w4"])] ∧
        renamesOf mid = [] :=
  claim_C4 ⟨some ["base", "processing", "10.0.0.1", "w4"], [("seeds", JVal.jstr "A")],
      none, none, none, none⟩
    ["base"] "processing" "10.0.0.1" "w4" none (by decide) (by decide)

/-- Claim C5: moving a task to the state already encoded in its directory
path returns success and performs no filesystem operation, leaving both the
path and the record unchanged. -/
theorem claim_C5 (task : FileBasedTask) (p : FPath) (em : Option String)
    (hdir : task.taskdir = some p) :
    task.move_task (stateOfPath p) em = (task, none, []) := by
  simp [FileBasedTask.move_task, FileBasedTask.get_uuid_ip_state_basedir_from_path, hdir,
    parsePath, stateOfPath]

/-- Claim C5 witness: a same-state move on a concrete processing task. -/
theorem claim_C5_witness :
    FileBasedTask.move_task
        ⟨some ["base", "processing", "10.0.0.1", "w5"], [("alpha", JVal.jnum 1)],
         none, none, none, none⟩
        (stateOfPath ["base", "processing", "10.0.0.1", "w5"]) (some "m") =
      (⟨some ["base", "processing", "10.0.0.1", "w5"], [("alpha", JVal.jnum 1)],
        none, none, none, none⟩, none, []) :=
  claim_C5 ⟨some ["base", "processing", "10.0.0.1", "w5"], [("alpha", JVal.jnum 1)],
      none, none, none, none⟩
    ["base", "processing", "10.0.0.1", "w5"] (some "m") rfl

/-- Claim C9: every record that a cleanup pass writes to disk is the record
of a freshly constructed task with empty metadata plus the generic message:
exactly the singleton error field, regardless of what the quarantined
directory's record file previously held — original metadata is discarded. -/
theorem claim_C9 (plist : List FPath) (p : FPath) (d : TaskDict)
    (h : FsOp.writeFile p d ∈ (clean_up_problem_list plist).2) :
    d = [(nbgwas_rest.ERROR_PARAM, JVal.jstr "Unknown error with task")] := by
  refine clean_up_go_writes plist.length plist 0 [] ?_ p d h
  intro p0 d0 h0
  simp at h0

/-- Claim C9 witness: the write emitted for a concrete quarantined path. -/
theorem claim_C9_witness :
    FsOp.writeFile ["base", "submitted", "10.0.0.1", "q1", "task.json"]
        [(nbgwas_rest.ERROR_PARAM, JVal.jstr "Unknown error with task")] ∈
      (clean_up_problem_list [["base", "submitted", "10.0.0.1", "q1"]]).2 ∧
    [(nbgwas_rest.ERROR_PARAM, JVal.jstr "Unknown error with task")] =
      [(nbgwas_rest.ERROR_PARAM, JVal.jstr "Unknown error with task")] :=
  ⟨by decide, claim_C9 [["base", "submitted", "10.0.0.1", "q1"]]
    ["base", "submitted", "10.0.0.1", "q1", "task.json"]
    [(nbgwas_rest.ERROR_PARAM, JVal.jstr "Unknown error with task")] (by decide)⟩

/-- Claim C6 counterexample: a scanned task directory whose record file is
MISSING is skipped silently and never added to the quarantine list —
`get_next_task` only quarantines on a failed read/parse of an existing file,
so after the call the quarantine list is still empty. -/
theorem claim_C6_counterexample :
    (FileBasedSubmittedTaskFactory.get_next_task ⟨["base"], []⟩ exMissingRecordFs).1 = none ∧
    ["base", "submitted", "10.0.0.1", "abc"] ∉
      (FileBasedSubmittedTaskFactory.get_next_task ⟨["base"], []⟩ exMissingRecordFs).2 := by
  decide

/-- Claim C6 (amended): in a single `get_next_task` call, every scanned task
directory whose record file exists but is unreadable or fails to parse —
scanned meaning no earlier client directory held a readable task and no
earlier entry of its own client directory was readable — is added to the
quarantine list at most once (deduplicated by path) and skipped, with
scanning continuing to the next candidate in the same call, whether or not
a readable task is found and returned later in the call; every path ever
added to the quarantine list is the path of such a present-but-unparseable
record directory, so a scanned directory with a missing record file is
never quarantined; the call returns `None` exactly when no readable task
exists or the submitted directory is absent, and the quarantine list never
shrinks during a call. -/
theorem claim_C6_amended (fac : FileBasedSubmittedTaskFactory) (fs : SubmittedDir)
    (hnd : fac.problemlist.Nodup) :
    (fac.get_next_task fs).2.Nodup ∧
    (∀ p ∈ fac.problemlist, p ∈ (fac.get_next_task fs).2) ∧
    ((fac.get_next_task fs).1 = none ↔ submittedHasReadable fs = false) ∧
    (fs.isDir = true →
      ∀ cs1 ce cs2, fs.entries = cs1 ++ ce :: cs2 →
        (∀ ce0 ∈ cs1, clientHasReadable ce0 = false) → ce.isDir = true →
        ∀ es1 se es2, ce.entries = es1 ++ se :: es2 →
          (∀ se0 ∈ es1, subEntryReadable se0 = false) → se.isDir = true →
          ∀ err, se.taskJson = some (JsonFileContent.parseFail err) →
            fac.taskdir ++ [nbgwas_rest.SUBMITTED_STATUS, ce.name, se.name] ∈
              (fac.get_next_task fs).2) ∧
    (∀ p ∈ (fac.get_next_task fs).2, p ∈ fac.problemlist ∨
      ∃ ce ∈ fs.entries, ce.isDir = true ∧ ∃ se ∈ ce.entries, se.isDir = true ∧
        (∃ err, se.taskJson = some (JsonFileContent.parseFail err)) ∧
        p = fac.taskdir ++ [nbgwas_rest.SUBMITTED_STATUS, ce.name, se.name]) := by
  by_cases hfs : fs.isDir
  · refine ⟨?_, ?_, ?_, ?_, ?_⟩
    · simpa [FileBasedSubmittedTaskFactory.get_next_task, hfs] using
        scanSubmitted_nodup fac.problemlist (fac.taskdir ++ [nbgwas_rest.SUBMITTED_STATUS])
          fs.entries hnd
    · intro p hp
      simpa [FileBasedSubmittedTaskFactory.get_next_task, hfs] using
        scanSubmitted_mono fac.problemlist (fac.taskdir ++ [nbgwas_rest.SUBMITTED_STATUS])
          fs.entries p hp
    · have := scanSubmitted_none_iff fac.problemlist
        (fac.taskdir ++ [nbgwas_rest.SUBMITTED_STATUS]) fs.entries
      simpa [FileBasedSubmittedTaskFactory.get_next_task, hfs, submittedHasReadable] using this
    · intro hfs2 cs1 ce cs2 hents hcpre hcdir es1 se es2 hsents hpre hdir err hjson
      have := scanSubmitted_quarantines_scanned fac.problemlist
        (fac.taskdir ++ [nbgwas_rest.SUBMITTED_STATUS]) cs1 ce cs2 hcpre hcdir
        es1 se es2 hsents hpre hdir err hjson
      rw [← hents] at this
      simpa [FileBasedSubmittedTaskFactory.get_next_task, hfs, List.append_assoc] using this
    · intro p hp
      have hp2 : p ∈ (scanSubmitted fac.problemlist
          (fac.taskdir ++ [nbgwas_rest.SUBMITTED_STATUS]) fs.entries).2 := by
        simpa [FileBasedSubmittedTaskFactory.get_next_task, hfs] using hp
      rcases scanSubmitted_added_provenance fac.problemlist
          (fac.taskdir ++ [nbgwas_rest.SUBMITTED_STATUS]) fs.entries p hp2 with
        h1 | ⟨ce, hm, hdir1, se, hms, hdirs, hj, hpeq⟩
      · exact Or.inl h1
      · right
        exact ⟨ce, hm, hdir1, se, hms, hdirs, hj, by simpa [List.append_assoc] using hpeq⟩
  · refine ⟨?_, ?_, ?_, ?_, ?_⟩
    · simpa [FileBasedSubmittedTaskFactory.get_next_task, hfs] using hnd
    · intro p hp
      simpa [FileBasedSubmittedTaskFactory.get_next_task, hfs] using hp
    · simp [FileBasedSubmittedTaskFactory.get_next_task, hfs, submittedHasReadable]
    · intro hfs2
      rw [hfs2] at hfs
      exact absurd rfl hfs
    · intro p hp
      left
      simpa [FileBasedSubmittedTaskFactory.get_next_task, hfs] using hp

/-- Claim C6 witness: a concrete store whose tree has a missing-record
directory in the first client, then a corrupt-record directory followed by
a readable one: the call returns the readable task, still quarantines the
corrupt directory scanned before it, and the addition's provenance is that
parse-failing directory. -/
theorem claim_C6_amended_witness :
    ["b", "submitted", "c1", "bad"] ∈
      (FileBasedSubmittedTaskFactory.get_next_task ⟨["b"], []⟩ exMixedFs).2 ∧
    (["b", "submitted", "c1", "bad"] ∈ ([] : List FPath) ∨
      ∃ ce ∈ exMixedFs.entries, ce.isDir = true ∧ ∃ se ∈ ce.entries, se.isDir = true ∧
        (∃ err, se.taskJson = some (JsonFileContent.parseFail err)) ∧
        ["b", "submitted", "c1", "bad"] =
          ["b"] ++ [nbgwas_rest.SUBMITTED_STATUS, ce.name, se.name]) ∧
    (FileBasedSubmittedTaskFactory.get_next_task ⟨["b"], []⟩ exMixedFs).1.isSome = true :=
  have h4 := (claim_C6_amended ⟨["b"], []⟩ exMixedFs (by decide)).2.2.2.1 rfl
    [⟨"c0", true, [⟨"noRecord", true, none⟩]⟩]
    ⟨"c1", true,
     [⟨"bad", true, some (JsonFileContent.parseFail "json decode error")⟩,
      ⟨"good", true, some (JsonFileContent.parseOk [("seeds", JVal.jstr "A")])⟩]⟩
    [] rfl (by decide) rfl
    [] ⟨"bad", true, some (JsonFileContent.parseFail "json decode error")⟩
    [⟨"good", true, some (JsonFileContent.parseOk [("seeds", JVal.jstr "A")])⟩]
    rfl (by decide) rfl "json decode error" rfl
  ⟨h4,
   (claim_C6_amended ⟨["b"], []⟩ exMixedFs (by decide)).2.2.2.2
     ["b", "submitted", "c1", "bad"] h4,
   by decide⟩

/-- Claim C7: an exception escaping `_process_task` is caught by the loop
body, which moves the (partially mutated) task to the error outcome: the
task ends in `done/` and its record's error field holds the catch-all
message built from the current (processing) directory and the exception
text; and a trace of found tasks is processed one body per task — no task's
failure truncates the loop. -/
theorem claim_C7 :
    (∀ env task base ip u e,
      task.taskdir = some (base ++ [nbgwas_rest.SUBMITTED_STATUS, ip, u]) →
      (NbgwasTaskRunner.process_task env task).2.2 = some e →
      (NbgwasTaskRunner.run_tasks_body env task).1.taskdir =
        some (base ++ [nbgwas_rest.DONE_STATUS, ip, u]) ∧
      dictGet (NbgwasTaskRunner.run_tasks_body env task).1.taskdict nbgwas_rest.ERROR_PARAM =
        some (JVal.jstr ("Caught exception processing task: " ++
          pathToString (base ++ [nbgwas_rest.PROCESSING_STATUS, ip, u]) ++ " : " ++ e.text))) ∧
    (∀ steps, (NbgwasTaskRunner.run_tasks_trace steps).length = steps.length) := by
  constructor
  · intro env task base ip u e hdir hexc
    rcases hp : NbgwasTaskRunner.process_task env task with ⟨t, ops, exc⟩
    have hexc2 : exc = some e := by rw [hp] at hexc; exact hexc
    have hspec := process_task_spec env task base ip u hdir
    rw [hp] at hspec
    obtain ⟨ht, hd, hr⟩ := hspec (by rw [hexc2]; simp)
    have ht2 : t.taskdir = some (base ++ [nbgwas_rest.PROCESSING_STATUS, ip, u]) := ht
    simp only [NbgwasTaskRunner.run_tasks_body, hp, hexc2]
    rw [ht2]
    constructor
    · exact move_task_error_taskdir t base nbgwas_rest.PROCESSING_STATUS ip u _ ht2 (by decide)
    · rw [move_task_error_taskdict t base nbgwas_rest.PROCESSING_STATUS ip u _ ht2 (by decide),
        dictGet_dictSet]
      have hd2 : t.taskdict = task.taskdict := hd
      rfl
  · intro steps
    simp [NbgwasTaskRunner.run_tasks_trace]

/-- Claim C7 witness: a pipeline whose network acquisition raises; the loop
body lands the task in `done/` with the catch-all message, and a one-step
trace handles one task. -/
theorem claim_C7_witness :
    ((NbgwasTaskRunner.run_tasks_body ⟨Except.error (PyExc.other "boom"), Except.ok none⟩
        ⟨some ["b", "submitted", "ip1", "t7"], [], none, none, none, none⟩).1.taskdir =
      some (["b"] ++ [nbgwas_rest.DONE_STATUS, "ip1", "t7"]) ∧
    dictGet (NbgwasTaskRunner.run_tasks_body ⟨Except.error (PyExc.other "boom"), Except.ok none⟩
        ⟨some ["b", "submitted", "ip1", "t7"], [], none, none, none, none⟩).1.taskdict
      nbgwas_rest.ERROR_PARAM =
      some (JVal.jstr ("Caught exception processing task: " ++
        pathToString (["b"] ++ [nbgwas_rest.PROCESSING_STATUS, "ip1", "t7"]) ++ " : " ++
        (PyExc.other "boom").text))) ∧
    (NbgwasTaskRunner.run_tasks_trace
        [(⟨Except.error (PyExc.other "boom"), Except.ok none⟩,
          ⟨some ["b", "submitted", "ip1", "t7"], [], none, none, none, none⟩)]).length = 1 :=
  ⟨claim_C7.1 ⟨Except.error (PyExc.other "boom"), Except.ok none⟩
      ⟨some ["b", "submitted", "ip1", "t7"], [], none, none, none, none⟩
      ["b"] "ip1" "t7" (PyExc.other "boom") rfl (by decide),
   claim_C7.2 [(⟨Except.error (PyExc.other "boom"), Except.ok none⟩,
      ⟨some ["b", "submitted", "ip1", "t7"], [], none, none, none, none⟩)]⟩

/-- Claim C8: states only advance along submitted → processing → done under
the engine's operations: a fetched task always sits in `submitted/`; every
path the store quarantines is in `submitted/`; the loop body's renames on a
fetched task strictly increase the state rank, as do the renames of a
cleanup pass over quarantined (submitted) paths — no runner operation ever
renames a task backward. -/
theorem claim_C8 :
    (∀ fac fs t, (FileBasedSubmittedTaskFactory.get_next_task fac fs).1 = some t →
      ∃ c n, t.taskdir = some (fac.taskdir ++ [nbgwas_rest.SUBMITTED_STATUS, c, n])) ∧
    (∀ fac fs p, p ∈ (FileBasedSubmittedTaskFactory.get_next_task fac fs).2 →
      p ∈ fac.problemlist ∨
        ∃ c n, p = fac.taskdir ++ [nbgwas_rest.SUBMITTED_STATUS, c, n]) ∧
    (∀ env task base ip u,
      task.taskdir = some (base ++ [nbgwas_rest.SUBMITTED_STATUS, ip, u]) →
      ∀ pr ∈ renamesOf (NbgwasTaskRunner.run_tasks_body env task).2,
        stateRank (stateOfPath pr.1) < stateRank (stateOfPath pr.2)) ∧
    (∀ plist, (∀ p ∈ plist, stateOfPath p = nbgwas_rest.SUBMITTED_STATUS) →
      ∀ pr ∈ renamesOf (clean_up_problem_list plist).2,
        stateRank (stateOfPath pr.1) < stateRank (stateOfPath pr.2)) := by
  refine ⟨?_, ?_, ?_, ?_⟩
  · intro fac fs t h
    by_cases hfs : fs.isDir
    · simp only [FileBasedSubmittedTaskFactory.get_next_task, hfs, if_true] at h
      rcases scanSubmitted_found_shape _ _ _ _ h with ⟨c, n, hc⟩
      refine ⟨c, n, ?_⟩
      simpa [List.append_assoc] using hc
    · simp [FileBasedSubmittedTaskFactory.get_next_task, hfs] at h
  · intro fac fs p h
    by_cases hfs : fs.isDir
    · simp only [FileBasedSubmittedTaskFactory.get_next_task, hfs, if_true] at h
      rcases scanSubmitted_added_shape _ _ _ _ h with h1 | ⟨c, n, hc⟩
      · exact Or.inl h1
      · right
        exact ⟨c, n, by simpa [List.append_assoc] using hc⟩
    · left
      simpa [FileBasedSubmittedTaskFactory.get_next_task, hfs] using h
  · intro env task base ip u hdir pr hpr
    rw [run_tasks_body_renames env task base ip u hdir] at hpr
    rcases List.mem_cons.mp hpr with h | h
    · subst h
      rw [stateOfPath_append3, stateOfPath_append3]
      decide
    · rcases List.mem_singleton.mp h with h2
      subst h2
      rw [stateOfPath_append3, stateOfPath_append3]
      decide
  · intro plist hsub pr hpr
    have := clean_up_go_renames plist.length plist 0 [] hsub
      (by intro pr0 h0; simp [renamesOf] at h0) pr hpr
    rw [this.1, this.2]
    decide

/-- Claim C8 witness: the four conjuncts instantiated on a concrete fetch
(returning a submitted task), a concrete pipeline run and a concrete
cleanup pass. -/
theorem claim_C8_witness :
    (∃ c n, (FileBasedTask.mk (some ["b", "submitted", "c2", "ok"])
        [("seeds", JVal.jstr "A")] none none none none).taskdir =
      some (["b"] ++ [nbgwas_rest.SUBMITTED_STATUS, c, n])) ∧
    (∀ pr ∈ renamesOf (NbgwasTaskRunner.run_tasks_body
        ⟨Except.ok none, Except.ok none⟩
        ⟨some ["b", "submitted", "ip1", "t8"], [], none, none, none, none⟩).2,
      stateRank (stateOfPath pr.1) < stateRank (stateOfPath pr.2)) ∧
    (∀ pr ∈ renamesOf (clean_up_problem_list [["b", "submitted", "ip1", "q8"]]).2,
      stateRank (stateOfPath pr.1) < stateRank (stateOfPath pr.2)) :=
  ⟨claim_C8.1 ⟨["b"], []⟩
      ⟨true, [⟨"c2", true, [⟨"ok", true,
        some (JsonFileContent.parseOk [("seeds", JVal.jstr "A")])⟩]⟩]⟩
      (FileBasedTask.mk (some ["b", "submitted", "c2", "ok"])
        [("seeds", JVal.jstr "A")] none none none none) (by decide),
   claim_C8.2.2.1 ⟨Except.ok none, Except.ok none⟩
      ⟨some ["b", "submitted", "ip1", "t8"], [], none, none, none, none⟩
      ["b"] "ip1" "t8" rfl,
   claim_C8.2.2.2 [["b", "submitted", "ip1", "q8"]] (by decide)⟩

/-- Claim C10: with the graph object and the filtered seed list both
present, the gene-level summary is always built: one row per graph node,
p-value 0 on rows whose gene is a filtered seed and 1 otherwise; hence the
pipeline's "Unable to create gene level summary" error branch never fires —
neither the disk records written by `_process_task` nor the final in-memory
record ever carry that message (assuming it was not already present in the
submitted record). -/
theorem claim_C10 :
    (∀ task nodes seeds,
      task.networkx_obj = some nodes → task.filteredseedlist = some seeds →
      NbgwasTaskRunner.create_gene_level_summary task =
        Except.ok (some (nodes.map (fun n => (n, if n ∈ seeds then (0 : Nat) else 1))))) ∧
    (∀ env task base ip u,
      task.taskdir = some (base ++ [nbgwas_rest.SUBMITTED_STATUS, ip, u]) →
      dictGet task.taskdict nbgwas_rest.ERROR_PARAM ≠
        some (JVal.jstr "Unable to create gene level summary") →
      (∀ p d, FsOp.writeFile p d ∈ (NbgwasTaskRunner.process_task env task).2.1 →
        dictGet d nbgwas_rest.ERROR_PARAM ≠
          some (JVal.jstr "Unable to create gene level summary")) ∧
      dictGet (NbgwasTaskRunner.process_task env task).1.taskdict nbgwas_rest.ERROR_PARAM ≠
        some (JVal.jstr "Unable to create gene level summary")) := by
  constructor
  · intro task nodes seeds h1 h2
    simp only [NbgwasTaskRunner.create_gene_level_summary, h1, h2]
    rw [gls_rows]
  · intro env task base ip u hdir hpre
    constructor
    · intro p d hmem
      rcases process_task_writes env task base ip u hdir p d hmem with h | ⟨m, hm, hd⟩
      · rw [h]
        exact hpre
      · rw [hd, dictGet_dictSet]
        simp only [stageMsg] at hm
        rcases hm with h | h | h <;> subst h <;> decide
    · rcases process_task_dict env task base ip u hdir with h | ⟨m, hm, hd⟩
      · rw [h]
        exact hpre
      · rw [hd, dictGet_dictSet]
        simp only [stageMsg] at hm
        rcases hm with h | h | h <;> subst h <;> decide

/-- Claim C10 witness: the summary table for a concrete two-node graph and
one-seed filter, and the unreachability conclusion on a concrete run. -/
theorem claim_C10_witness :
    NbgwasTaskRunner.create_gene_level_summary
        ⟨some ["b", "processing", "ip1", "tX"], [], some ["G1", "G2"], none, some ["G1"], none⟩ =
      Except.ok (some [("G1", 0), ("G2", 1)]) ∧
    dictGet (NbgwasTaskRunner.process_task ⟨Except.ok (some ["G1"]), Except.ok none⟩
        ⟨some ["b", "submitted", "ipz", "tz"], [("seeds", JVal.jstr "G1")],
         none, none, none, none⟩).1.taskdict nbgwas_rest.ERROR_PARAM ≠
      some (JVal.jstr "Unable to create gene level summary") :=
  ⟨claim_C10.1 ⟨some ["b", "processing", "ip1", "tX"], [], some ["G1", "G2"],
      none, some ["G1"], none⟩ ["G1", "G2"] ["G1"] rfl rfl,
   (claim_C10.2 ⟨Except.ok (some ["G1"]), Except.ok none⟩
      ⟨some ["b", "submitted", "ipz", "tz"], [("seeds", JVal.jstr "G1")],
       none, none, none, none⟩ ["b"] "ipz" "tz" rfl (by decide)).2⟩
